import Mathlib

/-!
# Verification of the vue-locator-extractor pipeline

A shallow embedding of the locator-extraction pipeline of the
`vue-locator-extractor` repository, together with theorems settling the
frozen claims C1-C10 about it.

The embedding follows the TypeScript sources:
* `src/scanVueTemplates.ts`   (enhanced scanner: pattern matching, context
  resolution, classification, key generation, template processing);
* `src/extractLocators.ts`    (entry point: splitting, emission, summary);
* the simpler scanner variant (file `part_005`), whose
  `extractLocatorsFromVue` resolves key collisions by numeric suffixing.

JavaScript strings are modelled by Lean `String`, JS objects holding
string keys by insertion-ordered association lists, regular-expression
scans by explicit character-level scanners that mirror the behaviour of
the concrete regexes used in the source, and thrown exceptions /
`process.exit(1)` by `Except`.
-/

set_option maxHeartbeats 1000000

namespace VueLoc

/-! ## Basic character and string helpers (JS semantics) -/

/-- The character `{` (written via its code so the character never
appears literally in the file). -/
def lbrace : Char := Char.ofNat 123

/-- The character `}`. -/
def rbrace : Char := Char.ofNat 125

/-- The single-quote character. -/
def squote : Char := Char.ofNat 39

/-- The backtick character. -/
def btick : Char := Char.ofNat 96

/-- The double-quote character. -/
def dquote : Char := Char.ofNat 34

/-- JS `\w` word characters: ASCII letters, digits and underscore. -/
def isWordChar (c : Char) : Bool :=
  (c ≥ 'a' && c ≤ 'z') || (c ≥ 'A' && c ≤ 'Z') || (c ≥ '0' && c ≤ '9') || c = '_'

/-- ASCII lowercase letters and digits (the class `[a-z0-9]` used by the
key-normalisation regexes). -/
def isLowerDigit (c : Char) : Bool :=
  (c ≥ 'a' && c ≤ 'z') || (c ≥ '0' && c ≤ '9')

/-- ASCII letters. -/
def isAsciiAlpha (c : Char) : Bool :=
  (c ≥ 'a' && c ≤ 'z') || (c ≥ 'A' && c ≤ 'Z')

/-- Characters of the class `[a-zA-Z0-9-]` (tag-name tail). -/
def isTagTail (c : Char) : Bool :=
  isAsciiAlpha c || (c ≥ '0' && c ≤ '9') || c = '-'

/-- Characters of the class `[A-Z_]` (constant names). -/
def isUpperScore (c : Char) : Bool :=
  (c ≥ 'A' && c ≤ 'Z') || c = '_'

/-- JS `\s` whitespace (restricted to the ASCII whitespace appearing in
source templates). -/
def isWs (c : Char) : Bool :=
  c = ' ' || c = '\t' || c = '\n' || c = '\r'

/-- Prefix test on character lists. -/
def isPrefixL : List Char → List Char → Bool
  | [], _ => true
  | _ :: _, [] => false
  | p :: ps, s :: ss => p = s && isPrefixL ps ss

/-- Substring test on character lists (`String.prototype.includes`). -/
def containsL (pat : List Char) : List Char → Bool
  | [] => isPrefixL pat []
  | c :: rest => isPrefixL pat (c :: rest) || containsL pat rest

/-- JS `haystack.includes(needle)`. -/
def strContains (s pat : String) : Bool :=
  containsL pat.data s.data

/-- ASCII lowercase of a character (JS `toLowerCase` restricted to ASCII,
which covers every string the pipeline manipulates). -/
def lowerChar (c : Char) : Char :=
  if c ≥ 'A' && c ≤ 'Z' then Char.ofNat (c.toNat + 32) else c

/-- ASCII lowercase of a string. -/
def lowerStr (s : String) : String :=
  ⟨s.data.map lowerChar⟩

/-- Case-insensitive substring test (a regex with the `i` flag whose
pattern is written in lowercase). -/
def containsCI (s pat : String) : Bool :=
  strContains (lowerStr s) pat

/-- JS `String.prototype.trim` (over the ASCII whitespace of `isWs`). -/
def jsTrim (s : String) : String :=
  ⟨(s.data.dropWhile isWs).reverse.dropWhile isWs |>.reverse⟩

/-- JS `Array.prototype.join(sep)`. -/
def jsJoin (sep : String) : List String → String
  | [] => ""
  | [x] => x
  | x :: y :: rest => x ++ sep ++ jsJoin sep (y :: rest)

/-- Split a character list at every maximal nonempty run of characters
satisfying `p`, keeping empty pieces at the borders exactly as JS
`String.prototype.split(regex)` does. -/
def splitRunsL (p : Char → Bool) : List Char → List (List Char)
  | [] => [[]]
  | c :: rest =>
    let tail := splitRunsL p rest
    if p c then
      match rest with
      | d :: _ => if p d then tail else [] :: tail
      | [] => [] :: tail
    else
      match tail with
      | [] => [[c]]
      | part :: parts => (c :: part) :: parts

/-- JS `s.split(/\s+/)`. -/
def jsSplitWs (s : String) : List String :=
  (splitRunsL isWs s.data).map fun l => ⟨l⟩

/-! ## Decimal rendering of natural numbers

JS renders the collision counter with ordinary decimal notation
(template literal `` `${key}_${counter}` ``).  We embed decimal rendering
with a fuel-based structural recursion so that it reduces inside the
kernel, and prove it injective (needed for the collision-freedom proof of
the suffixing scheme). -/

/-- Fuel-based most-significant-first decimal digits. -/
def natDecF : Nat → Nat → List Char
  | 0, _ => []
  | fuel + 1, n =>
    if n < 10 then [Nat.digitChar n]
    else natDecF fuel (n / 10) ++ [Nat.digitChar (n % 10)]

/-- Decimal digit list of `n`. -/
def natDecL (n : Nat) : List Char := natDecF (n + 1) n

/-- Decimal string of `n` (the JS rendering of a number). -/
def natDecStr (n : Nat) : String := ⟨natDecL n⟩

theorem natDecF_fuel_irrel (n : Nat) : ∀ f₁ f₂ : Nat, n < f₁ → n < f₂ →
    natDecF f₁ n = natDecF f₂ n := by
  induction n using Nat.strong_induction_on with
  | _ n ih =>
    intro f₁ f₂ h₁ h₂
    match f₁, f₂ with
    | a + 1, b + 1 =>
      by_cases hn : n < 10
      · simp [natDecF, hn]
      · have hpos : 0 < n := by omega
        have hdiv : n / 10 < n := Nat.div_lt_self hpos (by omega)
        have ha : n / 10 < a := by omega
        have hb : n / 10 < b := by omega
        simp only [natDecF, if_neg hn]
        rw [ih (n / 10) hdiv a b ha hb]

theorem natDecL_eq (n : Nat) :
    natDecL n = if n < 10 then [Nat.digitChar n]
      else natDecL (n / 10) ++ [Nat.digitChar (n % 10)] := by
  by_cases hn : n < 10
  · simp [natDecL, natDecF, hn]
  · have hpos : 0 < n := by omega
    have hdiv : n / 10 < n := Nat.div_lt_self hpos (by omega)
    rw [if_neg hn]
    show natDecF (n + 1) n = natDecL (n / 10) ++ [Nat.digitChar (n % 10)]
    simp only [natDecF, if_neg hn]
    rw [natDecF_fuel_irrel (n / 10) n (n / 10 + 1) (by omega) (by omega)]
    rfl

theorem natDecL_ne_nil (n : Nat) : natDecL n ≠ [] := by
  rw [natDecL_eq]
  by_cases hn : n < 10 <;> simp [hn]

theorem digitChar_inj_lt (m n : Nat) (hm : m < 10) (hn : n < 10)
    (h : Nat.digitChar m = Nat.digitChar n) : m = n := by
  interval_cases m <;> interval_cases n <;> simp_all [Nat.digitChar]

theorem natDecL_inj (m : Nat) : ∀ n : Nat, natDecL m = natDecL n → m = n := by
  induction m using Nat.strong_induction_on with
  | _ m ih =>
    intro n h
    rw [natDecL_eq m, natDecL_eq n] at h
    by_cases hm : m < 10 <;> by_cases hn : n < 10
    · simp only [if_pos hm, if_pos hn] at h
      exact digitChar_inj_lt m n hm hn (by simpa using h)
    · simp only [if_pos hm, if_neg hn] at h
      have hlen := congrArg List.length h
      simp only [List.length_singleton, List.length_append] at hlen
      have hnil : (natDecL (n / 10)).length = 0 := by omega
      exact absurd (List.length_eq_zero.mp hnil) (natDecL_ne_nil (n / 10))
    · simp only [if_neg hm, if_pos hn] at h
      have hlen := congrArg List.length h
      simp only [List.length_singleton, List.length_append] at hlen
      have hnil : (natDecL (m / 10)).length = 0 := by omega
      exact absurd (List.length_eq_zero.mp hnil) (natDecL_ne_nil (m / 10))
    · simp only [if_neg hm, if_neg hn] at h
      have hlen : [Nat.digitChar (m % 10)].length = [Nat.digitChar (n % 10)].length := rfl
      obtain ⟨h₁, h₂⟩ := List.append_inj' h hlen
      have hdiv : m / 10 < m := Nat.div_lt_self (by omega) (by omega)
      have hq : m / 10 = n / 10 := ih (m / 10) hdiv (n / 10) h₁
      have hr : m % 10 = n % 10 := by
        have hd : Nat.digitChar (m % 10) = Nat.digitChar (n % 10) := by simpa using h₂
        exact digitChar_inj_lt _ _ (Nat.mod_lt _ (by omega)) (Nat.mod_lt _ (by omega)) hd
      omega

theorem natDecStr_inj (m n : Nat) (h : natDecStr m = natDecStr n) : m = n := by
  apply natDecL_inj
  simpa [natDecStr, String.ext_iff] using h

/-! ## Insertion-ordered association lists (JS objects with string keys) -/

/-- First-match lookup (`obj[key]`, `undefined` as `none`). -/
def lookupA {α : Type} : List (String × α) → String → Option α
  | [], _ => none
  | (k, v) :: rest, key => if k = key then some v else lookupA rest key

/-- JS assignment `obj[key] = v`: replaces the value in place if the key
exists, otherwise appends the new binding at the end. -/
def jsSetA {α : Type} : List (String × α) → String → α → List (String × α)
  | [], key, v => [(key, v)]
  | (k, w) :: rest, key, v =>
    if k = key then (k, v) :: rest else (k, w) :: jsSetA rest key v

/-- Keys in insertion order (`Object.keys`). -/
def keysA {α : Type} (m : List (String × α)) : List String := m.map Prod.fst

/-- Values in insertion order (`Object.values`). -/
def valuesA {α : Type} (m : List (String × α)) : List α := m.map Prod.snd

theorem lookupA_jsSetA_self {α : Type} (m : List (String × α)) (k : String) (v : α) :
    lookupA (jsSetA m k v) k = some v := by
  induction m with
  | nil => simp [jsSetA, lookupA]
  | cons hd tl ih =>
    obtain ⟨k₀, w⟩ := hd
    by_cases hk : k₀ = k <;> simp [jsSetA, lookupA, hk, ih]

theorem jsSetA_of_not_mem {α : Type} (m : List (String × α)) (k : String) (v : α)
    (h : lookupA m k = none) : jsSetA m k v = m ++ [(k, v)] := by
  induction m with
  | nil => simp [jsSetA]
  | cons hd tl ih =>
    obtain ⟨k₀, w⟩ := hd
    by_cases hk : k₀ = k
    · simp [lookupA, hk] at h
    · simp [lookupA, hk] at h
      simp [jsSetA, hk, ih h]

theorem lookupA_isSome_mem_keys {α : Type} (m : List (String × α)) (k : String)
    (h : lookupA m k ≠ none) : k ∈ keysA m := by
  induction m with
  | nil => simp [lookupA] at h
  | cons hd tl ih =>
    obtain ⟨k₀, w⟩ := hd
    by_cases hk : k₀ = k
    · simp [keysA, hk]
    · simp [lookupA, hk] at h
      simpa [keysA] using Or.inr (by simpa [keysA] using ih h)

theorem lookupA_none_not_mem {α : Type} (m : List (String × α)) (k : String)
    (h : lookupA m k = none) : k ∉ keysA m := by
  induction m with
  | nil => simp [keysA]
  | cons hd tl ih =>
    obtain ⟨k₀, w⟩ := hd
    by_cases hk : k₀ = k
    · simp [lookupA, hk] at h
    · simp [lookupA, hk] at h
      simp [keysA]
      exact ⟨fun hc => hk hc.symm, by simpa [keysA] using ih h⟩

theorem keysA_jsSetA {α : Type} (m : List (String × α)) (k : String) (v : α) :
    keysA (jsSetA m k v) =
      if (lookupA m k).isNone then keysA m ++ [k] else keysA m := by
  induction m with
  | nil => simp [jsSetA, keysA, lookupA]
  | cons hd tl ih =>
    obtain ⟨k₀, w⟩ := hd
    by_cases hk : k₀ = k
    · simp [jsSetA, hk, keysA, lookupA]
    · simp only [jsSetA, if_neg hk, keysA, List.map_cons, lookupA]
      by_cases hl : (lookupA tl k).isNone
      · simp only [if_neg hk, hl, if_true]
        simpa [keysA, hl] using ih
      · simp only [if_neg hk, hl, if_false]
        simpa [keysA, hl] using ih

theorem keysA_jsSetA_nodup {α : Type} (m : List (String × α)) (k : String) (v : α)
    (h : (keysA m).Nodup) : (keysA (jsSetA m k v)).Nodup := by
  rw [keysA_jsSetA]
  by_cases hl : (lookupA m k).isNone
  · simp only [if_pos hl]
    have := lookupA_none_not_mem m k (Option.isNone_iff_eq_none.mp hl)
    simpa [List.nodup_append] using ⟨h, this⟩
  · simpa [if_neg hl] using h

/-! ## The collision-suffixing key scheme of the variant scanner

The variant scanner (`part_005`, `extractLocatorsFromVue`) makes keys
unique per file with

```
let uniqueKey = key; let counter = 1;
while (groupedLocators[keyGroup]?.[uniqueKey]) {
  uniqueKey = `${key}_${counter}`; counter++;
}
```

`freshKey` embeds this loop.  The JS loop is unbounded; we give it
`m.length + 1` rounds of fuel and prove (by a pigeonhole argument) that
this always suffices, so the embedding computes exactly the loop's
result. -/

/-- The candidate key `` `${base}_${c}` ``. -/
def candKey (base : String) (c : Nat) : String := base ++ "_" ++ natDecStr c

theorem candKey_inj (base : String) (i j : Nat) (h : candKey base i = candKey base j) :
    i = j := by
  apply natDecL_inj
  have hd := congrArg String.data h
  simp only [candKey, String.data_append] at hd
  have := List.append_cancel_left hd
  simpa [natDecStr] using this

/-- The `while` loop of the collision scheme, with explicit fuel. -/
def freshKeyGo {α : Type} (m : List (String × α)) (base : String) : Nat → Nat → String
  | c, 0 => candKey base c
  | c, fuel + 1 =>
    if (lookupA m (candKey base c)).isNone then candKey base c
    else freshKeyGo m base (c + 1) fuel

/-- The unique key chosen for base key `base` against the per-file map
`m`: `base` itself if unused, otherwise the first unused `base_1`,
`base_2`, …. -/
def freshKey {α : Type} (m : List (String × α)) (base : String) : String :=
  if (lookupA m base).isNone then base else freshKeyGo m base 1 (m.length + 1)

theorem exists_free_cand {α : Type} (m : List (String × α)) (base : String) :
    ∃ j, 1 ≤ j ∧ j ≤ m.length + 1 ∧ (lookupA m (candKey base j)).isNone := by
  by_contra hc
  push_neg at hc
  have hmem : ∀ i : Fin (m.length + 1), candKey base (i.val + 1) ∈ (keysA m).toFinset := by
    intro i
    rw [List.mem_toFinset]
    apply lookupA_isSome_mem_keys
    intro hnone
    have := hc (i.val + 1) (by omega) (by omega)
    simp [hnone] at this
  have hinj : Function.Injective (fun i : Fin (m.length + 1) => candKey base (i.val + 1)) := by
    intro a b hab
    have := candKey_inj base _ _ hab
    exact Fin.ext (by omega)
  have hsub : Finset.image (fun i : Fin (m.length + 1) => candKey base (i.val + 1))
      Finset.univ ⊆ (keysA m).toFinset := by
    intro x hx
    simp only [Finset.mem_image, Finset.mem_univ, true_and] at hx
    obtain ⟨i, rfl⟩ := hx
    exact hmem i
  have hcard1 : (Finset.image (fun i : Fin (m.length + 1) => candKey base (i.val + 1))
      Finset.univ).card = m.length + 1 := by
    rw [Finset.card_image_of_injective _ hinj, Finset.card_univ, Fintype.card_fin]
  have hcard2 : (keysA m).toFinset.card ≤ m.length := by
    have h1 := List.toFinset_card_le (keysA m)
    have h2 : (keysA m).length = m.length := by simp [keysA]
    omega
  have := Finset.card_le_card hsub
  omega

theorem freshKeyGo_isNone {α : Type} (m : List (String × α)) (base : String) :
    ∀ fuel c, (∃ j, c ≤ j ∧ j < c + fuel ∧ (lookupA m (candKey base j)).isNone) →
    (lookupA m (freshKeyGo m base c fuel)).isNone := by
  intro fuel
  induction fuel with
  | zero =>
    rintro c ⟨j, h1, h2, _⟩
    omega
  | succ f ih =>
    rintro c ⟨j, h1, h2, h3⟩
    simp only [freshKeyGo]
    by_cases hcnd : (lookupA m (candKey base c)).isNone
    · simp [hcnd]
    · rw [if_neg hcnd]
      apply ih (c + 1)
      refine ⟨j, ?_, by omega, h3⟩
      rcases Nat.eq_or_lt_of_le h1 with rfl | h
      · exact absurd h3 hcnd
      · omega

/-- The collision loop always lands on a key that is not yet bound. -/
theorem freshKey_isNone {α : Type} (m : List (String × α)) (base : String) :
    (lookupA m (freshKey m base)).isNone := by
  unfold freshKey
  by_cases hb : (lookupA m base).isNone
  · simp [hb]
  · rw [if_neg hb]
    apply freshKeyGo_isNone
    obtain ⟨j, h1, h2, h3⟩ := exists_free_cand m base
    exact ⟨j, h1, by omega, h3⟩

/-- If the base key is unused it is taken verbatim. -/
theorem freshKey_of_free {α : Type} (m : List (String × α)) (base : String)
    (h : (lookupA m base).isNone) : freshKey m base = base := by
  simp [freshKey, h]

/-- On the first collision the suffix `_1` is chosen. -/
theorem freshKey_first_suffix {α : Type} (m : List (String × α)) (base : String)
    (h1 : ¬(lookupA m base).isNone) (h2 : (lookupA m (candKey base 1)).isNone) :
    freshKey m base = candKey base 1 := by
  simp [freshKey, h1, freshKeyGo, h2]

/-! ## Character-level scanners for the concrete regexes of the source

Each scanner mirrors one regular expression used by the TypeScript code,
with JS `matchAll` semantics: the text is scanned left to right, a match
is attempted at every index, and after a successful match scanning
resumes at the first index past it.  The attribute patterns are
deterministic (their backtracking never changes the outcome, as the
character following a shortened greedy group can never satisfy the next
regex token), so maximal munch is exact. -/

/-- Case-insensitive prefix test; `pat` is given in lowercase. -/
def isPrefixCI (pat s : List Char) : Bool :=
  isPrefixL pat (s.map lowerChar)

/-- Attempt `LIT \s* = \s* Q capture Q2` at the head of `s`, where `Q`
is any character of `openers` and the capture consists of characters
outside `excl` (nonempty unless `allowEmpty`); the closing quote is any
character of `excl`.  Returns the capture and the total matched length. -/
def matchAttrHere (lit : List Char) (openers excl : List Char) (allowEmpty wsEq ci : Bool)
    (s : List Char) : Option (String × Nat) :=
  if (if ci then isPrefixCI lit s else isPrefixL lit s) then
    let s1 := s.drop lit.length
    let w1 := if wsEq then (s1.takeWhile isWs).length else 0
    match s1.drop w1 with
    | '=' :: s3 =>
      let w2 := if wsEq then (s3.takeWhile isWs).length else 0
      match s3.drop w2 with
      | q :: s5 =>
        if openers.contains q then
          let cap := s5.takeWhile fun c => !excl.contains c
          if cap.isEmpty && !allowEmpty then none
          else
            match s5.drop cap.length with
            | [] => none
            | _ :: _ =>
              some (⟨cap⟩, lit.length + w1 + 1 + w2 + 1 + cap.length + 1)
        else none
      | [] => none
    | _ => none
  else none

/-- The scanning loop of `matchAll` for an attribute pattern.  `wb`
requires a word boundary in front of the literal (the `\b` of the `id`,
`class`, `name` and `role` patterns); `prev` is the character before the
current position. -/
def scanAttrGo (lit : List Char) (openers excl : List Char) (allowEmpty wsEq ci wb : Bool) :
    Option Char → Nat → List Char → Nat → List (Nat × String)
  | _, _, _, 0 => []
  | prev, pos, s, fuel + 1 =>
    match s with
    | [] => []
    | c :: rest =>
      let boundaryOk := !wb ||
        (match prev with
         | none => true
         | some p => !isWordChar p)
      match (if boundaryOk then matchAttrHere lit openers excl allowEmpty wsEq ci s else none) with
      | some (cap, len) =>
        (pos, cap) ::
          scanAttrGo lit openers excl allowEmpty wsEq ci wb
            ((s.take len).getLast? ) (pos + len) (s.drop len) fuel
      | none =>
        scanAttrGo lit openers excl allowEmpty wsEq ci wb (some c) (pos + 1) rest fuel

/-- All matches `(index, capture)` of an attribute pattern in `s`. -/
def scanAttr (lit : String) (openers excl : List Char) (allowEmpty wsEq ci wb : Bool)
    (s : String) : List (Nat × String) :=
  scanAttrGo lit.data openers excl allowEmpty wsEq ci wb none 0 s.data (s.data.length + 1)

/-- Both ordinary quote characters (the class `["']`). -/
def quotePair : List Char := [dquote, squote]

/-- Matches of `LIT\s*=\s*["']([^"']+)["']` (the static and `:`-dynamic
attribute patterns of `processTemplateContent`). -/
def scanAttrQ (lit : String) (wb : Bool) (s : String) : List (Nat × String) :=
  scanAttr lit quotePair quotePair false true true wb s

/-- Matches of ``LIT\s*=\s*`([^`]*)` `` (the template-literal patterns). -/
def scanAttrB (lit : String) (s : String) : List (Nat × String) :=
  scanAttr lit [btick] [btick] true true true false s

/-- Matches of `LIT="([^"]+)"` (the double-quote-only patterns of the
variant scanner `part_005` and of the template-string scan of
`processJavaScriptContent`; these regexes have no `\s*` around `=` and
no `i` flag). -/
def scanAttrD (lit : String) (s : String) : List (Nat × String) :=
  scanAttr lit [dquote] [dquote] false false false false s

/-- The token scanner of `detectVueDirectives`:
`/(v-[\w-]+|@\w+|:\w+)/g`. -/
def scanDirGo : List Char → Nat → List String
  | _, 0 => []
  | s, fuel + 1 =>
    match s with
    | [] => []
    | 'v' :: '-' :: r2 =>
      let tok := r2.takeWhile fun ch => isWordChar ch || ch = '-'
      if tok.isEmpty then scanDirGo ('-' :: r2) fuel
      else (⟨'v' :: '-' :: tok⟩ : String) :: scanDirGo (r2.drop tok.length) fuel
    | '@' :: r1 =>
      let tok := r1.takeWhile isWordChar
      if tok.isEmpty then scanDirGo r1 fuel
      else (⟨'@' :: tok⟩ : String) :: scanDirGo (r1.drop tok.length) fuel
    | ':' :: r1 =>
      let tok := r1.takeWhile isWordChar
      if tok.isEmpty then scanDirGo r1 fuel
      else (⟨':' :: tok⟩ : String) :: scanDirGo (r1.drop tok.length) fuel
    | _ :: rest => scanDirGo rest fuel

/-- All directive-shaped tokens in a string. -/
def scanDir (s : String) : List String :=
  scanDirGo s.data (s.data.length + 1)

/-- The scanner of `/(v-[\w-]+)/g` (ancestor-directive collection in
`analyzeElementContext`). -/
def scanVDirGo : List Char → Nat → List String
  | _, 0 => []
  | s, fuel + 1 =>
    match s with
    | [] => []
    | 'v' :: '-' :: r2 =>
      let tok := r2.takeWhile fun ch => isWordChar ch || ch = '-'
      if tok.isEmpty then scanVDirGo ('-' :: r2) fuel
      else (⟨'v' :: '-' :: tok⟩ : String) :: scanVDirGo (r2.drop tok.length) fuel
    | _ :: rest => scanVDirGo rest fuel

/-- All `v-` directive tokens in a string. -/
def scanVDir (s : String) : List String :=
  scanVDirGo s.data (s.data.length + 1)

/-- Remainder of `s` strictly after the first occurrence of `pat`
(`none` when `pat` does not occur). -/
def dropAfterSub (pat : List Char) : List Char → Option (List Char)
  | [] => if pat.isEmpty then some [] else none
  | c :: rest =>
    if isPrefixL pat (c :: rest) then some ((c :: rest).drop pat.length)
    else dropAfterSub pat rest

/-! ## `scanVueTemplates.ts`: data and helper functions -/

/-- Elements that are typically relevant for testing
(`testRelevantElements`). -/
def testRelevantElements : List String :=
  ["button", "input", "textarea", "select", "a", "form", "h1", "h2", "h3",
   "h4", "h5", "h6", "table", "tr", "td", "th", "ul", "ol", "li"]

/-- Robust attributes in priority order (`robustAttributes`). -/
def robustAttributes : List String :=
  ["data-testid", "data-test-id", "data-test", "id", "name", "role",
   "aria-label", "placeholder"]

/-- Vue directives that make elements dynamic or conditional
(`dynamicDirectives`). -/
def dynamicDirectives : List String :=
  ["v-for", "v-if", "v-else-if", "v-show", "v-model"]

/-- Result of `detectVueDirectives`. -/
structure DirectiveInfo where
  directives : List String
  isDynamic : Bool
  isConditional : Bool
deriving DecidableEq, Repr

/-- `detectVueDirectives(attributeString)` of `scanVueTemplates.ts`:
collects every `v-…`, `@…` or `:…` token and flags `v-for` (dynamic)
and `v-if`/`v-else-if`/`v-show` (conditional). -/
def detectVueDirectives (attributeString : String) : DirectiveInfo :=
  let directives := scanDir attributeString
  { directives := directives
    isDynamic := directives.any fun d => d = "v-for"
    isConditional := directives.any fun d =>
      d = "v-if" || d = "v-else-if" || d = "v-show" }

/-- `isCustomComponent(tagName)`: matches `/^[A-Z][a-zA-Z0-9]*$/` or
contains a hyphen. -/
def isCustomComponent (tagName : String) : Bool :=
  (match tagName.data with
   | c :: rest => (c ≥ 'A' && c ≤ 'Z') &&
       rest.all fun ch => isAsciiAlpha ch || (ch ≥ '0' && ch ≤ '9')
   | [] => false) ||
  strContains tagName "-"

/-- First index `≥ i` holding `>` in `content`, or `content.length`
(the forward `tagEnd` scan of `analyzeElementContext`). -/
def findGtFrom (content : List Char) (i : Nat) : Nat :=
  i + ((content.drop i).takeWhile fun c => c ≠ '>').length

/-- JS `content.substring(start, finish)` for already-clamped natural
bounds with `start ≤ finish` (`finish` is clamped at the length). -/
def substrNat (s : List Char) (start fin : Nat) : List Char :=
  (s.take fin).drop start

/-- First match of `/<(\w+)([^>]*)/`: the tag name and the raw attribute
text up to (excluding) the first `>` or the end. -/
def findTagNameAttrsGo : List Char → Nat → Option (String × String)
  | _, 0 => none
  | [], _ => none
  | '<' :: rest, fuel + 1 =>
    let name := rest.takeWhile isWordChar
    if name.isEmpty then findTagNameAttrsGo rest fuel
    else
      let attrs := (rest.drop name.length).takeWhile fun c => c ≠ '>'
      some (⟨name⟩, ⟨attrs⟩)
  | _ :: rest, fuel + 1 => findTagNameAttrsGo rest fuel

/-- First match of `/<(\w+)([^>]*)/` in a string. -/
def findTagNameAttrs (s : String) : Option (String × String) :=
  findTagNameAttrsGo s.data (s.data.length + 1)

/-- Result of `analyzeElementContext`. -/
structure ContextInfo where
  parentContext : String
  ancestorDirectives : List String
  lineNumber : Nat
deriving DecidableEq, Repr

/-- The backward walk of `analyzeElementContext`: from `searchIndex`
down to index 1, tracking bracket depth (`>` increments, `<` decrements);
every `<` reached at negative depth is treated as a parent tag whose
`v-…` directives are collected; the walk stops early when a parent tag's
attribute text contains one of the dynamic directives. -/
def analyzeGo (content : List Char) : Nat → Int → List String → String × List String
  | 0, _, acc => ("", acc)
  | si + 1, depth, acc =>
    match content.get? (si + 1) with
    | some '>' => analyzeGo content si (depth + 1) acc
    | some '<' =>
      let depth1 := depth - 1
      if depth1 < 0 then
        let tagStart := si + 1
        let tagEnd := findGtFrom content tagStart
        let parentTag := substrNat content tagStart (tagEnd + 1)
        match findTagNameAttrs ⟨parentTag⟩ with
        | some (tagName, attrs) =>
          let acc1 := acc ++ scanVDir attrs
          if dynamicDirectives.any (fun dir => strContains attrs dir) then
            ("inside " ++ tagName ++ " with dynamic directives", acc1)
          else analyzeGo content si depth1 acc1
        | none => analyzeGo content si depth1 acc
      else analyzeGo content si depth1 acc
    | _ => analyzeGo content si depth acc

/-- Number of newline characters before `matchIndex`, plus one. -/
def lineNumberAt (content : String) (matchIndex : Nat) : Nat :=
  ((content.data.take matchIndex).filter fun c => c = '\n').length + 1

/-- `analyzeElementContext(content, matchIndex)`. -/
def analyzeElementContext (content : String) (matchIndex : Nat) : ContextInfo :=
  let res := analyzeGo content.data matchIndex 0 []
  { parentContext := res.1
    ancestorDirectives := res.2
    lineNumber := lineNumberAt content matchIndex }

/-- The `getBy*`-compatible attribute list of `classifyElement`. -/
def getByCompatibleAttributes : List String :=
  ["data-testid", "data-test-id", "data-test", "id", "name", "role",
   "aria-label", "placeholder", "title", "alt"]

/-- Attribute maps: JS objects with string keys and string values. -/
abbrev Attrs := List (String × String)

/-- `attributes[attr] && attributes[attr].trim()`: defined, nonempty,
and nonempty after trimming. -/
def attrNonBlank (attributes : Attrs) (attr : String) : Bool :=
  match lookupA attributes attr with
  | some v => v ≠ "" && jsTrim v ≠ ""
  | none => false

/-- `attributes['data-xpath'] || attributes['xpath']` coerced through
the later truthiness test: the first nonempty of the two, else `""`. -/
def xpathValueOf (attributes : Attrs) : String :=
  match lookupA attributes "data-xpath" with
  | some v => if v ≠ "" then v else (lookupA attributes "xpath").getD ""
  | none => (lookupA attributes "xpath").getD ""

/-- The `/\[@.*btn.*\]/i` test: some newline-free stretch contains
`[@` then `btn` then `]` in order. -/
def bracketAtBtn (lowered : String) : Bool :=
  (lowered.data.splitOn '\n').any fun line =>
    (((dropAfterSub ['[', '@'] line).bind
        (dropAfterSub ['b', 't', 'n'])).bind
        (dropAfterSub [']'])).isSome

/-- The `robustXPathPatterns.some(...)` disjunction of `classifyElement`
(case-insensitive). -/
def robustXPathTest (xpathValue : String) : Bool :=
  let l := lowerStr xpathValue
  strContains l "//input" || strContains l "//button" || bracketAtBtn l ||
  strContains l "button[" || strContains l "input[" || strContains l "btn" ||
  strContains l "contains(text()" || strContains l "text()="

/-- `isInteractiveElementWithText` of `classifyElement`. -/
def isInteractiveElementWithText (element xpathValue : String) : Bool :=
  (["button", "a", "h1", "h2", "h3", "h4", "h5", "h6"].contains element) &&
  (let l := lowerStr xpathValue
   strContains l "contains(text()" || strContains l "text()=")

/-- The decorative keyword list of `classifyElement`. -/
def decorativeClasses : List String :=
  ["icon", "decoration", "separator", "spacer", "divider"]

/-- `classifyElement(element, attributes)`: robustness
(`"robust"`/`"fragile"`) and test relevance (`"high"`/`"medium"`/`"low"`). -/
def classifyElement (element : String) (attributes : Attrs) : String × String :=
  let hasGetByCompatible :=
    getByCompatibleAttributes.any fun attr => attrNonBlank attributes attr
  let robustness :=
    if hasGetByCompatible then "robust"
    else
      let xpathValue := xpathValueOf attributes
      let classValue := (lookupA attributes "class").getD ""
      let r1 :=
        if xpathValue ≠ "" &&
            (robustXPathTest xpathValue ||
             isInteractiveElementWithText element xpathValue) then "robust"
        else "fragile"
      if classValue ≠ "" && containsCI classValue "btn" then "robust" else r1
  let rel1 :=
    if testRelevantElements.contains element then
      if ["button", "input", "textarea", "select", "a", "form"].contains element
      then "high"
      else if ["h1", "h2", "h3", "h4", "h5", "h6", "table", "tr"].contains element
      then "medium"
      else "medium"
    else "low"
  let rel2 := if hasGetByCompatible && rel1 = "low" then "medium" else rel1
  let classValue := (lookupA attributes "class").getD ""
  let rel3 :=
    if decorativeClasses.any (fun cls => strContains classValue cls) then "low"
    else rel2
  (robustness, rel3)

/-- Collapse every maximal run of characters satisfying `bad` to the
single character `rep` (a global regex replace of `/(bad)+/g`). -/
def collapseRunsL (bad : Char → Bool) (rep : Char) : List Char → List Char
  | [] => []
  | c :: rest =>
    if bad c then
      match rest with
      | d :: _ =>
        if bad d then collapseRunsL bad rep rest
        else rep :: collapseRunsL bad rep rest
      | [] => [rep]
    else c :: collapseRunsL bad rep rest

/-- `raw.toLowerCase().replace(/[^a-z0-9]+/g, rep)`. -/
def lowerCollapse (raw : String) (rep : Char) : String :=
  ⟨collapseRunsL (fun c => !isLowerDigit c) rep (lowerStr raw).data⟩

/-- `.replace(/^_+|_+$/g, '')`: trim leading and trailing underscores. -/
def trimUnderscores (s : String) : String :=
  ⟨(s.data.dropWhile (fun c => c = '_')).reverse.dropWhile (fun c => c = '_')
    |>.reverse⟩

/-- The normalisation step of `generateEnhancedKey`: lowercase, collapse
non-alphanumeric runs to `_`, trim underscores. -/
def normalizeKey (rawValue : String) : String :=
  trimUnderscores (lowerCollapse rawValue '_')

/-- `generateEnhancedKey(rawValue, type, isDynamic, isConditional)`. -/
def generateEnhancedKey (rawValue type : String)
    (isDynamic isConditional : Bool) : String :=
  let key0 := normalizeKey rawValue
  let key1 :=
    if type = "class" then "class_" ++ key0
    else if type = "role" then lowerStr rawValue ++ "_role"
    else if type = "placeholder" then key0 ++ "_input"
    else if type = "xpath" then "xpath_" ++ key0
    else key0
  if isDynamic && isConditional then key1 ++ "_dynamic_conditional"
  else if isDynamic then key1 ++ "_dynamic"
  else if isConditional then key1 ++ "_conditional"
  else key1

/-- `generateFragileWarning(element, rawValue, type)`. -/
def generateFragileWarning (element rawValue type : String) : String :=
  let d := lowerCollapse rawValue '-'
  let suggestions :=
    ["Consider adding data-testid=\"" ++ d ++ "\"",
     "Alternative: data-test-id=\"" ++ d ++ "\"",
     "Alternative: data-test=\"" ++ d ++ "\"",
     "Or add a unique id=\"" ++ d ++ "\""]
  "FRAGILE LOCATOR WARNING: " ++ element ++ " with " ++ type ++ "=\"" ++
    rawValue ++ "\" lacks stable test attributes. " ++ jsJoin " | " suggestions

/-! ## Element extraction (`extractElementWithAttributesEnhanced`) -/

/-- JS `String.prototype.substring(a, b)` with full JS semantics:
negative indices clamp to `0`, indices above the length clamp to the
length, and the two are swapped when `a > b`. -/
def jsSubstring (s : String) (a b : Int) : String :=
  let n : Int := Int.ofNat s.data.length
  let i := (min (max a 0) n).toNat
  let j := (min (max b 0) n).toNat
  ⟨(s.data.take (max i j)).drop (min i j)⟩

/-- The backward scan of `extractElementWithAttributesEnhanced`: walk
from `matchIndex` down to index 1 and stop at the first `<` seen at
depth 0 (`>` increments the depth, other `<` decrement it). -/
def tagStartGo (content : List Char) : Nat → Int → Nat
  | 0, _ => 0
  | si + 1, depth =>
    match content.get? (si + 1) with
    | some '>' => tagStartGo content si (depth + 1)
    | some '<' => if depth = 0 then si + 1 else tagStartGo content si (depth - 1)
    | _ => tagStartGo content si depth

/-- The forward scan: from `matchIndex` upward to the first `>` seen at
depth 0 (`<` increments), or the length of the content. -/
def tagEndGo (content : List Char) : Nat → Int → Nat → Nat
  | i, _, 0 => i
  | i, depth, fuel + 1 =>
    if i < content.length then
      match content.get? i with
      | some '<' => tagEndGo content (i + 1) (depth + 1) fuel
      | some '>' => if depth = 0 then i else tagEndGo content (i + 1) (depth - 1) fuel
      | _ => tagEndGo content (i + 1) depth fuel
    else i

/-- First match of `/<([a-zA-Z][a-zA-Z0-9-]*)[^>]*\/?>/`: the element
name of the first `<`+letter sequence that is followed by a later `>`. -/
def findElemGo : List Char → Nat → Option String
  | _, 0 => none
  | [], _ => none
  | '<' :: rest, fuel + 1 =>
    match rest with
    | c :: _ =>
      if isAsciiAlpha c then
        let name := rest.takeWhile isTagTail
        if (rest.drop name.length).contains '>' then some ⟨name⟩
        else findElemGo rest fuel
      else findElemGo rest fuel
    | [] => none
  | _ :: rest, fuel + 1 => findElemGo rest fuel

/-- First tag match in a string. -/
def findElemMatch (s : String) : Option String :=
  findElemGo s.data (s.data.length + 1)

/-- `= \s* quote capture quote` (the value part shared by the attribute
grammar patterns); returns capture and consumed length including any
leading whitespace before `=`. -/
def matchEqValHere (openers excl : List Char) (s : List Char) : Option (String × Nat) :=
  let w1 := (s.takeWhile isWs).length
  match s.drop w1 with
  | '=' :: s3 =>
    let w2 := (s3.takeWhile isWs).length
    match s3.drop w2 with
    | q :: s5 =>
      if openers.contains q then
        let cap := s5.takeWhile fun c => !excl.contains c
        match s5.drop cap.length with
        | [] => none
        | _ :: _ => some (⟨cap⟩, w1 + 1 + w2 + 1 + cap.length + 1)
      else none
    | [] => none
  | _ => none

/-- Greedy extension of an attribute name by `(?:-\w+)*`. -/
def extendNameGo : List Char → List Char → Nat → List Char × List Char
  | s, acc, 0 => (acc, s)
  | '-' :: rest, acc, fuel + 1 =>
    let w := rest.takeWhile isWordChar
    if w.isEmpty then (acc, '-' :: rest)
    else extendNameGo (rest.drop w.length) (acc ++ '-' :: w) fuel
  | s, acc, _ + 1 => (acc, s)

/-- Matches of `/(\w+(?:-\w+)*)\s*=\s*["']([^"']*)["']/g` (standard
attributes). -/
def scanP1Go : List Char → Nat → List (String × String)
  | _, 0 => []
  | [], _ => []
  | s@(_ :: rest), fuel + 1 =>
    let w := s.takeWhile isWordChar
    if w.isEmpty then scanP1Go rest fuel
    else
      let ext := extendNameGo (s.drop w.length) w (s.length + 1)
      match matchEqValHere quotePair quotePair ext.2 with
      | some (cap, len) => (⟨ext.1⟩, cap) :: scanP1Go (ext.2.drop len) fuel
      | none => scanP1Go rest fuel

/-- Matches of
`/([@:][\w-]+|v-bind:[\w-]+|v-on:[\w-]+)\s*=\s*["']([^"']*)["']/g`
(dynamic-binding attributes). -/
def scanP2Go : List Char → Nat → List (String × String)
  | _, 0 => []
  | [], _ => []
  | s@(c :: rest), fuel + 1 =>
    let nameOpt : Option (List Char × List Char) :=
      if c = '@' || c = ':' then
        let w := rest.takeWhile fun ch => isWordChar ch || ch = '-'
        if w.isEmpty then none else some (c :: w, rest.drop w.length)
      else if isPrefixL "v-bind:".data s then
        let r := s.drop 7
        let w := r.takeWhile fun ch => isWordChar ch || ch = '-'
        if w.isEmpty then none else some ("v-bind:".data ++ w, r.drop w.length)
      else if isPrefixL "v-on:".data s then
        let r := s.drop 5
        let w := r.takeWhile fun ch => isWordChar ch || ch = '-'
        if w.isEmpty then none else some ("v-on:".data ++ w, r.drop w.length)
      else none
    match nameOpt with
    | some (name, rem) =>
      match matchEqValHere quotePair quotePair rem with
      | some (cap, len) => (⟨name⟩, cap) :: scanP2Go (rem.drop len) fuel
      | none => scanP2Go rest fuel
    | none => scanP2Go rest fuel

/-- Matches of `/(v-[\w-]+)(?:\s|>|$)/g` (value-less directives). -/
def scanP3Go : List Char → Nat → List String
  | _, 0 => []
  | [], _ => []
  | 'v' :: '-' :: r2, fuel + 1 =>
    let w := r2.takeWhile fun ch => isWordChar ch || ch = '-'
    if w.isEmpty then scanP3Go ('-' :: r2) fuel
    else
      match r2.drop w.length with
      | [] => [⟨'v' :: '-' :: w⟩]
      | d :: rem2 =>
        if isWs d || d = '>' then (⟨'v' :: '-' :: w⟩ : String) :: scanP3Go rem2 fuel
        else scanP3Go ('-' :: r2) fuel
  | _ :: rest, fuel + 1 => scanP3Go rest fuel

/-- Result of `extractElementWithAttributesEnhanced`. -/
structure ElemAttrs where
  element : String
  attributes : Attrs
deriving DecidableEq, Repr

/-- `extractElementWithAttributesEnhanced(match, content)`: recover the
enclosing tag, its element name and its parsed attributes.  Note that
the source computes
`attributeString = tagContent.substring(element.length + 1, -1)`, whose
JS semantics (clamp, then swap) yield the *leading*
`element.length + 1` characters of the tag — i.e. `<` followed by the
element name — rather than the attribute text; the embedding reproduces
this behaviour exactly via `jsSubstring`. -/
def extractElementWithAttributesEnhanced (matchIndex : Nat) (content : String) :
    ElemAttrs :=
  let cs := content.data
  let tagStart := tagStartGo cs matchIndex 0
  let tagEnd := tagEndGo cs matchIndex 0 (cs.length + 1)
  let tagContent : String := ⟨substrNat cs tagStart (tagEnd + 1)⟩
  match findElemMatch tagContent with
  | none => { element := "element", attributes := [] }
  | some element =>
    let attributeString := jsSubstring tagContent (Int.ofNat (element.length + 1)) (-1)
    let attrs0 : Attrs := [("fullAttributeString", attributeString)]
    let attrs1 := (scanP1Go attributeString.data (attributeString.data.length + 1)).foldl
      (fun m p => jsSetA m p.1 p.2) attrs0
    let attrs2 := (scanP2Go attributeString.data (attributeString.data.length + 1)).foldl
      (fun m p => jsSetA m p.1 p.2) attrs1
    let attrs3 := (scanP3Go attributeString.data (attributeString.data.length + 1)).foldl
      (fun m n => jsSetA m n "") attrs2
    { element := element, attributes := attrs3 }

/-! ## Template normalisation (`normalizeTemplateForParsing`) -/

/-- `.replace(/<!--[\s\S]*?-->/g, '')`. -/
def stripCommentsGo : List Char → Nat → List Char
  | s, 0 => s
  | [], _ => []
  | s@(c :: rest), fuel + 1 =>
    if isPrefixL "<!--".data s then
      match dropAfterSub "-->".data (s.drop 4) with
      | some rest2 => stripCommentsGo rest2 fuel
      | none => s
    else c :: stripCommentsGo rest fuel

/-- `.replace(/\s*\n\s*/g, ' ')`: each maximal whitespace run containing
a newline becomes one space. -/
def nlRunsGo : List Char → Nat → List Char
  | s, 0 => s
  | [], _ => []
  | s@(c :: rest), fuel + 1 =>
    if isWs c then
      let run := s.takeWhile isWs
      let after := s.drop run.length
      (if run.contains '\n' then [' '] else run) ++ nlRunsGo after fuel
    else c :: nlRunsGo rest fuel

/-- `.replace(/\s{2,}/g, ' ')`: whitespace runs of length at least two
become one space. -/
def multiWsGo : List Char → Nat → List Char
  | s, 0 => s
  | [], _ => []
  | s@(c :: rest), fuel + 1 =>
    if isWs c then
      let run := s.takeWhile isWs
      let after := s.drop run.length
      (if run.length ≥ 2 then [' '] else run) ++ multiWsGo after fuel
    else c :: multiWsGo rest fuel

/-- `.replace(/\s*=\s*/g, '=')`. -/
def eqCollapseGo : List Char → Nat → List Char
  | s, 0 => s
  | [], _ => []
  | s@(c :: rest), fuel + 1 =>
    if c = '=' then
      let tr := rest.takeWhile isWs
      '=' :: eqCollapseGo (rest.drop tr.length) fuel
    else if isWs c then
      let run := s.takeWhile isWs
      let after := s.drop run.length
      match after with
      | '=' :: a2 =>
        let tr := a2.takeWhile isWs
        '=' :: eqCollapseGo (a2.drop tr.length) fuel
      | _ => run ++ eqCollapseGo after fuel
    else c :: eqCollapseGo rest fuel

/-- `.replace(/([>\s])([a-zA-Z:-]+)=/g, '$1 $2=')`. -/
def attrSpaceGo : List Char → Nat → List Char
  | s, 0 => s
  | [], _ => []
  | c :: rest, fuel + 1 =>
    if c = '>' || isWs c then
      let name := rest.takeWhile fun ch => isAsciiAlpha ch || ch = ':' || ch = '-'
      if name.isEmpty then c :: attrSpaceGo rest fuel
      else
        match rest.drop name.length with
        | '=' :: r2 => c :: ' ' :: (name ++ '=' :: attrSpaceGo r2 fuel)
        | _ => c :: attrSpaceGo rest fuel
    else c :: attrSpaceGo rest fuel

/-- `normalizeTemplateForParsing(templateContent)`. -/
def normalizeTemplateForParsing (templateContent : String) : String :=
  let t1 := stripCommentsGo templateContent.data (templateContent.data.length + 1)
  let t2 := nlRunsGo t1 (t1.length + 1)
  let t3 := multiWsGo t2 (t2.length + 1)
  let t4 := eqCollapseGo t3 (t3.length + 1)
  let t5 := attrSpaceGo t4 (t4.length + 1)
  jsTrim ⟨t5⟩

/-! ## Template-literal bases and constant resolution -/

/-- The two-character string `${`. -/
def dollarBraceStr : String := ⟨['$', lbrace]⟩

/-- The one-character string for the closing brace. -/
def rbraceStr : String := ⟨[rbrace]⟩

/-- Characters of `s` before the first occurrence of `pat` (all of `s`
when `pat` does not occur): JS `s.split(pat)[0]`. -/
def partBeforeGo (pat : List Char) : List Char → List Char
  | [] => []
  | c :: rest =>
    if isPrefixL pat (c :: rest) then []
    else c :: partBeforeGo pat rest

/-- `extractTemplateLiteralBase(value)`: the static part before `${`,
else the static part after the last closing brace, else the value. -/
def extractTemplateLiteralBase (value : String) : String :=
  let beforeTemplate : String := ⟨partBeforeGo dollarBraceStr.data value.data⟩
  if beforeTemplate ≠ "" then beforeTemplate
  else
    let afterTemplate : String :=
      ⟨(value.data.reverse.takeWhile fun c => c ≠ rbrace).reverse⟩
    if afterTemplate ≠ "" then afterTemplate
    else value

/-- A constant definition tracked by the registry. -/
structure ConstantDefinition where
  name : String
  value : String
  type : String
  file : String
deriving DecidableEq, Repr

/-- The constants registry (`constantsRegistry`), as an
insertion-ordered map. -/
abbrev Registry := List (String × ConstantDefinition)

/-- First match of `/\$\{([A-Z_]+)\}/`. -/
def findTplRefGo : List Char → Nat → Option String
  | _, 0 => none
  | [], _ => none
  | '$' :: rest, fuel + 1 =>
    (match rest with
     | b :: r2 =>
       if b = lbrace then
         let w := r2.takeWhile isUpperScore
         if w.isEmpty then findTplRefGo rest fuel
         else
           match r2.drop w.length with
           | rb :: _ => if rb = rbrace then some ⟨w⟩ else findTplRefGo rest fuel
           | [] => findTplRefGo rest fuel
       else findTplRefGo rest fuel
     | [] => none)
  | _ :: rest, fuel + 1 => findTplRefGo rest fuel

/-- First constant reference `${NAME}` in a string. -/
def findTplRef (s : String) : Option String :=
  findTplRefGo s.data (s.data.length + 1)

/-- JS `s.replace(pat, rep)` with a plain (nonempty) string pattern:
replaces the first occurrence only. -/
def jsReplaceFirstL (pat rep : List Char) : List Char → List Char
  | [] => []
  | c :: rest =>
    if isPrefixL pat (c :: rest) then rep ++ (c :: rest).drop pat.length
    else c :: jsReplaceFirstL pat rep rest

/-- String version of `jsReplaceFirstL`. -/
def jsReplaceFirst (s pat rep : String) : String :=
  ⟨jsReplaceFirstL pat.data rep.data s.data⟩

/-- `resolveConstantReference(value)` against a registry: a bare
`ALL_CAPS` value, a `${ALL_CAPS}` template reference, or a trailing
`.ALL_CAPS` property access, resolved in that order; returns the
(possibly rewritten) value and the resolved constant name. -/
def resolveConstantReference (registry : Registry) (value : String) :
    String × Option String :=
  let fullMatch : Option ConstantDefinition :=
    if value ≠ "" && value.data.all isUpperScore then lookupA registry value
    else none
  match fullMatch with
  | some c => (c.value, some value)
  | none =>
    let tplMatch : Option (String × ConstantDefinition) :=
      match findTplRef value with
      | some cname =>
        (match lookupA registry cname with
         | some c => some (cname, c)
         | none => none)
      | none => none
    match tplMatch with
    | some (cname, c) =>
      (jsReplaceFirst value (dollarBraceStr ++ cname ++ rbraceStr) c.value,
       some cname)
    | none =>
      let revCaps := value.data.reverse.takeWhile isUpperScore
      let propMatch : Option (String × ConstantDefinition) :=
        if revCaps.isEmpty then none
        else
          match value.data.reverse.drop revCaps.length with
          | '.' :: _ =>
            let cname : String := ⟨revCaps.reverse⟩
            (match lookupA registry cname with
             | some c => some (cname, c)
             | none => none)
          | _ => none
      match propMatch with
      | some (cname, c) => (c.value, some cname)
      | none => (value, none)

/-! ## Locator records and the pattern table of `processTemplateContent` -/

/-- `LocatorInfo` of `scanVueTemplates.ts`.  The `element` field is
always set by both creation sites, so it is a plain `String`;
enumeration-typed fields hold the literal strings of the source. -/
structure LocatorInfo where
  selector : String
  type : String
  element : String
  rawValue : String
  robustness : String
  testRelevance : String
  warning : Option String
  isDynamic : Bool
  isConditional : Bool
  vueDirectives : List String
  customComponent : Bool
  parentContext : String
  resolvedFromConstant : Option String
deriving DecidableEq, Repr

/-- `CustomComponentWarning`. -/
structure CustomComponentWarning where
  file : String
  component : String
  line : Nat
  message : String
deriving DecidableEq, Repr

/-- The grouped locator table: file → key → record. -/
abbrev Grouped := List (String × List (String × LocatorInfo))

/-- `groupedLocators[keyGroup] = groupedLocators[keyGroup] || {}` followed
by `groupedLocators[keyGroup][key] = info`. -/
def insertGrouped (g : Grouped) (group key : String) (info : LocatorInfo) : Grouped :=
  jsSetA g group (jsSetA ((lookupA g group).getD []) key info)

/-- One entry of the `locatorPatterns` array: a scanner, the locator
type, a selector builder, and the per-pattern `isDynamic` flag. -/
structure LocatorPattern where
  scan : String → List (Nat × String)
  type : String
  selector : String → Option String
  patternIsDynamic : Bool

/-- The one-character string of the opening brace. -/
def lbraceStr : String := ⟨[lbrace]⟩

/-- The two-character string of a doubled opening brace. -/
def braceBraceStr : String := ⟨[lbrace, lbrace]⟩

/-- The `class` selector builder: `null` for complex Vue expressions,
otherwise the compound selector joining the space-separated class
tokens with dots. -/
def classSelector (val : String) : Option String :=
  if strContains val "[" || strContains val braceBraceStr ||
      strContains val dollarBraceStr || strContains val lbraceStr then none
  else some ("." ++ jsJoin "." (jsSplitWs val))

/-- Attribute-selector builder `[name="value"]`. -/
def attrSel (name val : String) : String :=
  "[" ++ name ++ "=\"" ++ val ++ "\"]"

/-- Substring attribute-selector builder `[name*="value"]`. -/
def attrSelStar (name val : String) : String :=
  "[" ++ name ++ "*=\"" ++ val ++ "\"]"

/-- The template-literal selector builder for attribute `name`:
a substring selector on the literal's static base when the value holds
an interpolation, an exact selector otherwise. -/
def tplSelector (name : String) (val : String) : Option String :=
  if strContains val dollarBraceStr then
    some (attrSelStar name (extractTemplateLiteralBase val))
  else some (attrSel name val)

/-- The template-literal `id` builder: substring selector or `#value`. -/
def tplIdSelector (val : String) : Option String :=
  if strContains val dollarBraceStr then
    some (attrSelStar "id" (extractTemplateLiteralBase val))
  else some ("#" ++ val)

/-- The `locatorPatterns` array of `processTemplateContent`, in source
order. -/
def locatorPatterns : List LocatorPattern :=
  [ { scan := scanAttrQ "data-testid" false, type := "data-testid",
      selector := fun v => some (attrSel "data-testid" v), patternIsDynamic := false },
    { scan := scanAttrQ ":data-testid" false, type := "data-testid",
      selector := fun v => some (attrSel "data-testid" v), patternIsDynamic := true },
    { scan := scanAttrQ "v-bind:data-testid" false, type := "data-testid",
      selector := fun v => some (attrSel "data-testid" v), patternIsDynamic := true },
    { scan := scanAttrB ":data-testid", type := "data-testid",
      selector := tplSelector "data-testid", patternIsDynamic := true },
    { scan := scanAttrQ "data-test-id" false, type := "data-test-id",
      selector := fun v => some (attrSel "data-test-id" v), patternIsDynamic := false },
    { scan := scanAttrQ ":data-test-id" false, type := "data-test-id",
      selector := fun v => some (attrSel "data-test-id" v), patternIsDynamic := true },
    { scan := scanAttrQ "data-test" false, type := "data-test",
      selector := fun v => some (attrSel "data-test" v), patternIsDynamic := false },
    { scan := scanAttrQ ":data-test" false, type := "data-test",
      selector := fun v => some (attrSel "data-test" v), patternIsDynamic := true },
    { scan := scanAttrQ "id" true, type := "id",
      selector := fun v => some ("#" ++ v), patternIsDynamic := false },
    { scan := scanAttrQ ":id" false, type := "id",
      selector := fun v => some ("#" ++ v), patternIsDynamic := true },
    { scan := scanAttrB ":id", type := "id",
      selector := tplIdSelector, patternIsDynamic := true },
    { scan := scanAttrQ "class" true, type := "class",
      selector := classSelector, patternIsDynamic := false },
    { scan := scanAttrQ "name" true, type := "name",
      selector := fun v => some (attrSel "name" v), patternIsDynamic := false },
    { scan := scanAttrQ ":name" false, type := "name",
      selector := fun v => some (attrSel "name" v), patternIsDynamic := true },
    { scan := scanAttrB ":name", type := "name",
      selector := tplSelector "name", patternIsDynamic := true },
    { scan := scanAttrQ "placeholder" false, type := "placeholder",
      selector := fun v => some (attrSel "placeholder" v), patternIsDynamic := false },
    { scan := scanAttrQ ":placeholder" false, type := "placeholder",
      selector := fun v => some (attrSel "placeholder" v), patternIsDynamic := true },
    { scan := scanAttrQ "aria-label" false, type := "aria-label",
      selector := fun v => some (attrSel "aria-label" v), patternIsDynamic := false },
    { scan := scanAttrQ ":aria-label" false, type := "aria-label",
      selector := fun v => some (attrSel "aria-label" v), patternIsDynamic := true },
    { scan := scanAttrQ "role" true, type := "role",
      selector := fun v => some (attrSel "role" v), patternIsDynamic := false },
    { scan := scanAttrQ ":role" false, type := "role",
      selector := fun v => some (attrSel "role" v), patternIsDynamic := true },
    { scan := scanAttrQ "data-xpath" false, type := "xpath",
      selector := fun v => some v, patternIsDynamic := false },
    { scan := scanAttrQ "xpath" false, type := "xpath",
      selector := fun v => some v, patternIsDynamic := false } ]

/-- The body of the per-match loop of `processTemplateContent`
(constant resolution, context analysis, element extraction, directive
detection, selector generation with the null-skip, classification, key
generation, warning construction, and insertion). -/
def stepMatch (registry : Registry) (normalizedTemplate keyGroup : String)
    (pat : LocatorPattern) (g : Grouped) (m : Nat × String) : Grouped :=
  let res := resolveConstantReference registry m.2
  let rawValue := res.1
  let resolvedFromConstant : Option String :=
    match res.2 with
    | some cname => some (cname ++ " → " ++ res.1)
    | none => none
  let context := analyzeElementContext normalizedTemplate m.1
  let ea := extractElementWithAttributesEnhanced m.1 normalizedTemplate
  let attrs1 :=
    match resolvedFromConstant with
    | some r => jsSetA ea.attributes "resolvedFromConstant" r
    | none => ea.attributes
  let attrs2 := jsSetA attrs1 pat.type rawValue
  let di := detectVueDirectives ((lookupA attrs2 "fullAttributeString").getD "")
  let finalIsDynamic := di.isDynamic || pat.patternIsDynamic
  let customComponent := isCustomComponent ea.element
  match pat.selector rawValue with
  | none => g
  | some selectorResult =>
    let cls := classifyElement ea.element attrs2
    let key := generateEnhancedKey rawValue pat.type finalIsDynamic di.isConditional
    let warning : Option String :=
      if cls.1 = "fragile" then
        some (generateFragileWarning ea.element rawValue pat.type ++
          (if finalIsDynamic then " | Element may be repeated (v-for detected)" else "") ++
          (if di.isConditional then
            " | Element may not always be present (conditional rendering detected)"
          else ""))
      else none
    let info : LocatorInfo :=
      { selector := selectorResult
        type := pat.type
        element := ea.element
        rawValue := rawValue
        robustness := cls.1
        testRelevance := cls.2
        warning := warning
        isDynamic := finalIsDynamic
        isConditional := di.isConditional
        vueDirectives := di.directives
        customComponent := customComponent
        parentContext := context.parentContext
        resolvedFromConstant := resolvedFromConstant }
    insertGrouped g keyGroup key info

/-- Matches of `/<([A-Z][a-zA-Z0-9-]*)[^>]*>/g` (custom-component
openings), as `(index, componentName)`. -/
def scanCCGo : List Char → Nat → Nat → List (Nat × String)
  | _, _, 0 => []
  | [], _, _ => []
  | '<' :: rest, pos, fuel + 1 =>
    (match rest with
     | c :: _ =>
       if c ≥ 'A' && c ≤ 'Z' then
         let name := rest.takeWhile isTagTail
         let after := rest.drop name.length
         let upToGt := after.takeWhile fun ch => ch ≠ '>'
         match after.drop upToGt.length with
         | '>' :: rem =>
           (pos, (⟨name⟩ : String)) ::
             scanCCGo rem (pos + 1 + name.length + upToGt.length + 1) fuel
         | _ => scanCCGo rest (pos + 1) fuel
       else scanCCGo rest (pos + 1) fuel
     | [] => [])
  | _ :: rest, pos, fuel + 1 => scanCCGo rest (pos + 1) fuel

/-- Custom-component matches in a template. -/
def scanCustomComponents (s : String) : List (Nat × String) :=
  scanCCGo s.data 0 (s.data.length + 1)

/-! ## The fallback stage (`detectElementsWithoutTestAttributes`)

The last stage of `processTemplateContent` scans the normalised template
with seven `interactiveElementPatterns` regexes and adds an `xpath`-type
record for each matched element that carries no test attribute.  The
`warnings` array is passed in but never written by the stage. -/

/-- Match of `/<(TAG)[^>]*>([^<]*)<\/TAG>/` at the head of `l`:
`(match length, captured text)`.  Both `[^>]*` and `[^<]*` are forced
maximal (shrinking either would place a non-matching character under
the following literal). -/
def matchOpenTextClose (tag : String) (l : List Char) : Option (Nat × String) :=
  if isPrefixL ('<' :: tag.data) l then
    let after := l.drop (tag.length + 1)
    let body := after.takeWhile fun c => c ≠ '>'
    match after.drop body.length with
    | '>' :: rest =>
      let text := rest.takeWhile fun c => c ≠ '<'
      let close := '<' :: '/' :: (tag.data ++ ['>'])
      if isPrefixL close (rest.drop text.length) then
        some (tag.length + 1 + body.length + 1 + text.length + close.length, ⟨text⟩)
      else none
    | _ => none
  else none

/-- Match of `/<(TAG)[^>]*>[^<]*<\/TAG>/` at the head of `l` (the inner
text is not a capture group, so the reported text is `""`). -/
def matchOpenSkipClose (tag : String) (l : List Char) : Option (Nat × String) :=
  match matchOpenTextClose tag l with
  | some (len, _) => some (len, "")
  | none => none

/-- Match of `/<(a)[^>]*href[^>]*>([^<]*)<\/a>/` at the head of `l`:
the tag body (the non-`>` span after `<a`) must contain `href`. -/
def matchAHref (l : List Char) : Option (Nat × String) :=
  if isPrefixL "<a".data l then
    let after := l.drop 2
    let body := after.takeWhile fun c => c ≠ '>'
    if containsL "href".data body then
      match after.drop body.length with
      | '>' :: rest =>
        let text := rest.takeWhile fun c => c ≠ '<'
        if isPrefixL "</a>".data (rest.drop text.length) then
          some (2 + body.length + 1 + text.length + 4, ⟨text⟩)
        else none
      | _ => none
    else none
  else none

/-- Match of `/<(h[1-6])[^>]*>([^<]*)<\/h[1-6]>/` at the head of `l`
(the closing digit need not equal the opening one). -/
def matchHeader (l : List Char) : Option (Nat × String) :=
  match l with
  | '<' :: 'h' :: d :: rest =>
    if d ≥ '1' && d ≤ '6' then
      let body := rest.takeWhile fun c => c ≠ '>'
      match rest.drop body.length with
      | '>' :: rest2 =>
        let text := rest2.takeWhile fun c => c ≠ '<'
        (match rest2.drop text.length with
         | '<' :: '/' :: 'h' :: d2 :: '>' :: _ =>
           if d2 ≥ '1' && d2 ≤ '6' then
             some (3 + body.length + 1 + text.length + 5, ⟨text⟩)
           else none
         | _ => none)
      | _ => none
    else none
  | _ => none

/-- Match of `type\s*=\s*["'](button|submit|reset)["']` at the head of
`l` (the two quotes are independent, as in the source regex): the
captured alternative. -/
def typeTokenAt (l : List Char) : Option String :=
  if isPrefixL "type".data l then
    let r1 := l.drop 4
    let r2 := r1.drop (r1.takeWhile isWs).length
    match r2 with
    | '=' :: r3 =>
      let r4 := r3.drop (r3.takeWhile isWs).length
      (match r4 with
       | q :: r5 =>
         if q = '"' || q = squote then
           let pick := fun (w : String) =>
             if isPrefixL w.data r5 then
               match r5.drop w.length with
               | q2 :: _ => if q2 = '"' || q2 = squote then some w else none
               | [] => none
             else none
           match pick "button" with
           | some w => some w
           | none =>
             match pick "submit" with
             | some w => some w
             | none => pick "reset"
         else none
       | [] => none)
    | _ => none
  else none

/-- The capture at the last position of `l` where the `type=` token
matches (the greedy `[^>]*` before it backtracks from the right, so the
rightmost occurrence is the one captured). -/
def lastTypeToken : List Char → Option String
  | [] => none
  | c :: rest =>
    match lastTypeToken rest with
    | some w => some w
    | none => typeTokenAt (c :: rest)

/-- Match of `/<(input)[^>]*type\s*=\s*["'](button|submit|reset)["'][^>]*>/`
at the head of `l`.  The token never contains `>`, so it matches iff it
occurs inside the tag body, and the whole match always ends at the tag
body's closing `>`. -/
def matchInputType (l : List Char) : Option (Nat × String) :=
  if isPrefixL "<input".data l then
    let after := l.drop 6
    let body := after.takeWhile fun c => c ≠ '>'
    match after.drop body.length with
    | '>' :: _ =>
      (match lastTypeToken body with
       | some w => some (6 + body.length + 1, w)
       | none => none)
    | _ => none
  else none

/-- Match of `/<(input)[^>]*(?!type\s*=\s*["'](button|submit|reset)["'])[^>]*>/`
at the head of `l`: the negative lookahead sits after a greedy `[^>]*`,
where (at the closing `>`) it always succeeds, so the pattern accepts
every `<input…>` opener and group 2 stays unset. -/
def matchInputAny (l : List Char) : Option (Nat × String) :=
  if isPrefixL "<input".data l then
    let after := l.drop 6
    let body := after.takeWhile fun c => c ≠ '>'
    match after.drop body.length with
    | '>' :: _ => some (6 + body.length + 1, "")
    | _ => none
  else none

/-- `matchAll` for one element pattern: `(index, full match, captured
text)` triples, scanning left to right and resuming right after each
match. -/
def scanElemsGo (matchAt : List Char → Option (Nat × String)) :
    List Char → Nat → Nat → List (Nat × String × String)
  | _, _, 0 => []
  | [], _, _ => []
  | l@(_ :: rest), i, fuel + 1 =>
    match matchAt l with
    | some (len, text) =>
      (i, (⟨l.take len⟩ : String), text) ::
        scanElemsGo matchAt (l.drop len) (i + len) fuel
    | none => scanElemsGo matchAt rest (i + 1) fuel

/-- All matches of one element pattern over a template. -/
def scanElems (matchAt : List Char → Option (Nat × String)) (s : String) :
    List (Nat × String × String) :=
  scanElemsGo matchAt s.data 0 (s.data.length + 1)

/-- The seven `interactiveElementPatterns` scans, in source order. -/
def fallbackScans (s : String) : List (List (Nat × String × String)) :=
  [scanElems (matchOpenTextClose "button") s,
   scanElems matchInputType s,
   scanElems matchInputAny s,
   scanElems (matchOpenSkipClose "textarea") s,
   scanElems (matchOpenSkipClose "select") s,
   scanElems matchAHref s,
   scanElems matchHeader s]

/-- `generateSuggestedTestId(element, textContent)`: lowercase, strip
characters outside `[a-z0-9\s]`, collapse whitespace runs to `-`, take
20 characters; a fixed per-element fallback when nothing remains. -/
def generateSuggestedTestId (element textContent : String) : String :=
  let kept := (lowerStr textContent).data.filter fun c =>
    (c ≥ 'a' && c ≤ 'z') || (c ≥ '0' && c ≤ '9') || isWs c
  let cleanText : String := ⟨(collapseRunsL isWs '-' kept).take 20⟩
  if cleanText ≠ "" then cleanText ++ "-" ++ element
  else if element = "button" then "button"
  else if element = "input" then "input"
  else if element = "textarea" then "textarea"
  else if element = "select" then "select"
  else if element = "a" then "link"
  else if element = "h1" || element = "h2" || element = "h3" ||
      element = "h4" || element = "h5" || element = "h6" then "heading"
  else element

/-- JS `str.split(sep)` for a one-character literal separator. -/
def splitCharGo (sep : Char) : List Char → List Char → List String
  | [], acc => [⟨acc.reverse⟩]
  | c :: rest, acc =>
    if c = sep then (⟨acc.reverse⟩ : String) :: splitCharGo sep rest []
    else splitCharGo sep rest (c :: acc)

/-- JS `str.split(' ')`. -/
def jsSplitChar (sep : Char) (s : String) : List String :=
  splitCharGo sep s.data []

/-- `generateFallbackXPath(element, attributes, textContent)`. -/
def generateFallbackXPath (element : String) (attributes : Attrs)
    (textContent : String) : Option String :=
  let conds0 : List String := []
  let classV := (lookupA attributes "class").getD ""
  let conds1 :=
    if classV ≠ "" && !strContains classV lbraceStr &&
        decide ((jsSplitChar ' ' classV).length ≤ 3) then
      match (jsSplitChar ' ' classV).filter (fun cls => decide (2 < cls.length)) with
      | cls0 :: _ => conds0 ++ ["contains(@class,\x27" ++ cls0 ++ "\x27)"]
      | [] => conds0
    else conds0
  let conds2 :=
    if textContent ≠ "" &&
        ["button", "a", "h1", "h2", "h3", "h4", "h5", "h6"].contains element then
      let cleanText : String :=
        ⟨(textContent.data.filter fun c => !(c = '"' || c = squote)).take 30⟩
      if cleanText ≠ "" then
        conds1 ++ ["contains(text(),\x27" ++ cleanText ++ "\x27)"]
      else conds1
    else conds1
  let conds3 :=
    if element = "input" && (lookupA attributes "type").getD "" ≠ "" then
      conds2 ++ ["@type=\x27" ++ (lookupA attributes "type").getD "" ++ "\x27"]
    else conds2
  let conds4 :=
    if (lookupA attributes "placeholder").getD "" ≠ "" &&
        !strContains ((lookupA attributes "placeholder").getD "") lbraceStr then
      conds3 ++ ["@placeholder=\x27" ++ (lookupA attributes "placeholder").getD "" ++ "\x27"]
    else conds3
  let conds5 :=
    if element = "a" && (lookupA attributes "href").getD "" ≠ "" &&
        !strContains ((lookupA attributes "href").getD "") lbraceStr &&
        !strContains ((lookupA attributes "href").getD "") "$" then
      conds4 ++ ["@href=\x27" ++ (lookupA attributes "href").getD "" ++ "\x27"]
    else conds4
  match conds5 with
  | [] => none
  | [c] => some ("//" ++ element ++ "[" ++ c ++ "]")
  | cs => some ("//" ++ element ++ "[" ++ jsJoin " and " cs ++ "]")

/-- The fallback warning text (attached when the classified robustness
is fragile). -/
def fallbackWarning (element textContent : String) : String :=
  let sug := generateSuggestedTestId element textContent
  "FRAGILE LOCATOR WARNING: " ++ element ++
    (if textContent ≠ "" then " with text=\"" ++ textContent ++ "\"" else "") ++
    " lacks stable test attributes. Consider adding data-testid=\"" ++ sug ++
    "\" | Alternative: data-test-id=\"" ++ sug ++
    "\" | Alternative: data-test=\"" ++ sug ++
    "\" | Or add a unique id=\"" ++ sug ++ "\""

/-- Per-match body of the fallback loop: skip elements that already
carry a test attribute, skip matches with no fallback XPath, skip keys
already present, otherwise classify and insert an `xpath`-type record.
The created record has no `resolvedFromConstant` property, and nothing
is pushed to the `warnings` array. -/
def fallbackStep (normalizedTemplate keyGroup : String) (g : Grouped)
    (m : Nat × String × String) : Grouped :=
  let fullElement := m.2.1
  let textContent := m.2.2
  let hasTestAttribute := robustAttributes.any fun attr =>
    strContains fullElement (attr ++ "=") ||
    strContains fullElement (":" ++ attr ++ "=") ||
    strContains fullElement ("v-bind:" ++ attr ++ "=")
  if hasTestAttribute then g
  else
    let context := analyzeElementContext normalizedTemplate m.1
    let ea := extractElementWithAttributesEnhanced m.1 normalizedTemplate
    match generateFallbackXPath ea.element ea.attributes (jsTrim textContent) with
    | none => g
    | some xpath =>
      let di := detectVueDirectives ((lookupA ea.attributes "fullAttributeString").getD "")
      let key := generateEnhancedKey xpath "xpath" di.isDynamic di.isConditional
      if (lookupA ((lookupA g keyGroup).getD []) key).isSome then g
      else
        let xpathAttributes := jsSetA ea.attributes "xpath" xpath
        let cls := classifyElement ea.element xpathAttributes
        let info : LocatorInfo :=
          { selector := xpath
            type := "xpath"
            element := ea.element
            rawValue := xpath
            robustness := cls.1
            testRelevance := cls.2
            warning :=
              if cls.1 = "fragile" then some (fallbackWarning ea.element textContent)
              else none
            isDynamic := di.isDynamic
            isConditional := di.isConditional
            vueDirectives := di.directives
            customComponent := isCustomComponent ea.element
            parentContext := context.parentContext
            resolvedFromConstant := none }
        insertGrouped g keyGroup key info

/-- `detectElementsWithoutTestAttributes(normalizedTemplate, keyGroup,
groupedLocators, warnings, filename)`: each pattern's matches are
materialised first, then folded through the per-match body; `warnings`
and `filename` are received but never used. -/
def detectElementsWithoutTestAttributes (normalizedTemplate keyGroup : String)
    (g : Grouped) : Grouped :=
  (fallbackScans normalizedTemplate).foldl
    (fun g2 ms => ms.foldl (fallbackStep normalizedTemplate keyGroup) g2) g

/-- The running state threaded through template processing. -/
structure TState where
  grouped : Grouped
  warnings : List String
  customComponentWarnings : List CustomComponentWarning
deriving DecidableEq, Repr

/-- `processTemplateContent(templateContent, keyGroup, groupedLocators,
warnings, customComponentWarnings, filename)`: custom-component warnings
on the raw template, the pattern-match loop over the normalised
template, then the `detectElementsWithoutTestAttributes` fallback stage
over the same normalised template. -/
def processTemplateContent (registry : Registry) (templateContent keyGroup filename : String)
    (st : TState) : TState :=
  let ccWs := (scanCustomComponents templateContent).map fun m =>
    let context := analyzeElementContext templateContent m.1
    { file := filename
      component := m.2
      line := context.lineNumber
      message := "Custom component <" ++ m.2 ++ "> at line " ++
        natDecStr context.lineNumber ++
        " — locator not extracted. Review component source or ensure it passes data-testid down to root element."
      : CustomComponentWarning }
  let st1 : TState :=
    { st with customComponentWarnings := st.customComponentWarnings ++ ccWs }
  let normalized := normalizeTemplateForParsing templateContent
  let grouped1 := locatorPatterns.foldl
    (fun g pat => (pat.scan normalized).foldl (stepMatch registry normalized keyGroup pat) g)
    st1.grouped
  let grouped2 := detectElementsWithoutTestAttributes normalized keyGroup grouped1
  { st1 with grouped := grouped2 }

/-! ## `processJavaScriptContent` -/

/-- The three JS quote characters. -/
def quote3 : List Char := [squote, dquote, btick]

/-- First match of `/['"`]?LIT['"`]?\s*:\s*['"`]([^'"`]+)['"`]/` in a
props string (the `testIdMatch` / `idMatch` extraction of
`processJavaScriptContent`). -/
def propMatchGo (lit : List Char) : List Char → Nat → Option String
  | _, 0 => none
  | [], _ => none
  | s@(c :: rest), fuel + 1 =>
    let s1 := if quote3.contains c then rest else s
    let attempt : Option String :=
      if isPrefixL lit s1 then
        let s2 := s1.drop lit.length
        let s3 := match s2 with
          | q :: r => if quote3.contains q then r else s2
          | [] => s2
        let w1 := (s3.takeWhile isWs).length
        match s3.drop w1 with
        | ':' :: s5 =>
          let w2 := (s5.takeWhile isWs).length
          (match s5.drop w2 with
           | q :: s7 =>
             if quote3.contains q then
               let cap := s7.takeWhile fun ch => !quote3.contains ch
               if cap.isEmpty then none
               else
                 match s7.drop cap.length with
                 | [] => none
                 | _ :: _ => some ⟨cap⟩
             else none
           | [] => none)
        | _ => none
      else none
    match attempt with
    | some cap => some cap
    | none => propMatchGo lit rest fuel

/-- First property match for `lit` in a props string. -/
def propMatch (lit : String) (props : String) : Option String :=
  propMatchGo lit.data props.data (props.data.length + 1)

/-- The regex-matching layer of `processJavaScriptContent`, taken as a
parameter: the `h()`/`createElement` matches (element name, props text)
and the raw template-string matches (`match[0]`), in source order. -/
structure JsScanners where
  createElementMatches : String → List (String × String)
  templateStringMatches : String → List String

/-- Per-match body of the `createElement` loop (source lines 575-615):
the record is created only when a `data-testid` or `id` property is
found, with the `data-testid` match taking precedence. -/
def jsCreateElementStep (keyGroup : String) (g : Grouped) (m : String × String) : Grouped :=
  let testIdMatch := propMatch "data-testid" m.2
  let idMatch := propMatch "id" m.2
  let build : String → String → Grouped := fun rawValue type =>
    let selector := if type = "data-testid" then attrSel "data-testid" rawValue
      else "#" ++ rawValue
    let key := generateEnhancedKey rawValue type false false
    insertGrouped g keyGroup key
      { selector := selector
        type := type
        element := m.1
        rawValue := rawValue
        robustness := if type = "data-testid" then "robust" else "robust"
        testRelevance := "high"
        warning := none
        isDynamic := true
        isConditional := false
        vueDirectives := []
        customComponent := false
        parentContext := "JS createElement"
        resolvedFromConstant := none }
  match testIdMatch with
  | some v => build v "data-testid"
  | none =>
    match idMatch with
    | some v => build v "id"
    | none => g

/-- Per-match body of the template-string loop (source lines 619-649):
every `data-testid="…"` occurrence inside the matched string produces a
record. -/
def jsTemplateStringStep (keyGroup : String) (g : Grouped) (htmlContent : String) : Grouped :=
  (scanAttrD "data-testid" htmlContent).foldl
    (fun g2 m =>
      let rawValue := m.2
      let key := generateEnhancedKey rawValue "data-testid" false false
      insertGrouped g2 keyGroup key
        { selector := attrSel "data-testid" rawValue
          type := "data-testid"
          element := "unknown"
          rawValue := rawValue
          robustness := "robust"
          testRelevance := "high"
          warning := none
          isDynamic := true
          isConditional := false
          vueDirectives := []
          customComponent := false
          parentContext := "JS template string"
          resolvedFromConstant := none })
    g

/-- `processJavaScriptContent(content, keyGroup, groupedLocators,
warnings, filename)`. -/
def processJavaScriptContent (jsScan : JsScanners) (content keyGroup : String)
    (g : Grouped) : Grouped :=
  let g1 := (jsScan.createElementMatches content).foldl (jsCreateElementStep keyGroup) g
  (jsScan.templateStringMatches content).foldl (jsTemplateStringStep keyGroup) g1

/-! ## `extractLocatorsFromVue`: the two-pass pipeline -/

/-- A candidate input file: its (relative) name and its content, with
`none` standing for a file whose read fails. -/
structure VueFile where
  name : String
  content : Option String
deriving DecidableEq, Repr

/-- `fs.readFile`: yields the content or throws. -/
def readFileE (f : VueFile) : Except String String :=
  match f.content with
  | some c => Except.ok c
  | none => Except.error ("unreadable file: " ++ f.name)

/-- `relative.replace(/\\/g, '/')`. -/
def slashPath (name : String) : String :=
  ⟨name.data.map fun c => if c = '\\' then '/' else c⟩

/-- First match capture of `/<template[^>]*>([\s\S]*?)<\/template>/`. -/
def capUpTo (pat : List Char) : List Char → Option (List Char)
  | [] => none
  | c :: rest =>
    if isPrefixL pat (c :: rest) then some []
    else (capUpTo pat rest).map fun l => c :: l

/-- The `<template>` section extraction of the second pass. -/
def templateSectionGo : List Char → Nat → Option String
  | [], _ => none
  | _, 0 => none
  | s@(_ :: rest), fuel + 1 =>
    if isPrefixL "<template".data s then
      let after := s.drop 9
      let upToGt := after.takeWhile fun ch => ch ≠ '>'
      match after.drop upToGt.length with
      | '>' :: rem =>
        (match capUpTo "</template>".data rem with
         | some cap => some ⟨cap⟩
         | none => templateSectionGo rest fuel)
      | _ => templateSectionGo rest fuel
    else templateSectionGo rest fuel

/-- The `<template>` section of a Vue file's content, when present. -/
def templateSection (content : String) : Option String :=
  templateSectionGo content.data (content.data.length + 1)

/-- The output triple of `extractLocatorsFromVue`. -/
structure ExtractOutput where
  groupedLocators : Grouped
  warnings : List String
  customComponentWarnings : List CustomComponentWarning
deriving DecidableEq, Repr

/-- The first pass of `extractLocatorsFromVue`: read every file and
collect constants into the registry (a failing read throws). -/
def constantsPass (constantsOf : String → String → List ConstantDefinition) :
    List VueFile → Registry → Except String Registry
  | [], r => Except.ok r
  | f :: rest, r =>
    match readFileE f with
    | Except.error e => Except.error e
    | Except.ok content =>
      constantsPass constantsOf rest
        ((constantsOf content f.name).foldl (fun r2 c => jsSetA r2 c.name c) r)

/-- The second pass: process each Vue file's `<template>` section
(files without one are skipped); a failing read throws. -/
def vuePass (reg : Registry) : List VueFile → TState → Except String TState
  | [], st => Except.ok st
  | f :: rest, st =>
    match readFileE f with
    | Except.error e => Except.error e
    | Except.ok content =>
      match templateSection content with
      | none => vuePass reg rest st
      | some templateContent =>
        vuePass reg rest
          (processTemplateContent reg templateContent (slashPath f.name) f.name st)

/-- The third pass: process each JS/TS file; a failing read throws. -/
def jsPass (jsScan : JsScanners) : List VueFile → TState → Except String TState
  | [], st => Except.ok st
  | f :: rest, st =>
    match readFileE f with
    | Except.error e => Except.error e
    | Except.ok content =>
      let g2 := processJavaScriptContent jsScan content
        (slashPath f.name ++ " (JS/TS)") st.grouped
      jsPass jsScan rest { st with grouped := g2 }

/-- `extractLocatorsFromVue(baseDir)`.  The file list produced by the
glob and the regex layer of `extractConstants` /
`processJavaScriptContent` are parameters (`constantsOf` maps a file's
content and name to its discovered constant definitions); everything
else follows the source: the registry is cleared on entry, a first pass
reads every file and collects constants, a second pass processes the
Vue templates, and a third processes the JS/TS files.  A failing
`readFile` (modelled by `none` content) throws, aborting the whole
function — the source wraps none of the per-file reads in `try`. -/
def extractLocatorsFromVue
    (constantsOf : String → String → List ConstantDefinition)
    (jsScan : JsScanners) (initialRegistry : Registry)
    (vueFiles jsFiles : List VueFile) : Except String ExtractOutput :=
  -- constantsRegistry.clear(): the pre-existing registry is discarded
  let _ := initialRegistry
  match constantsPass constantsOf (vueFiles ++ jsFiles) [] with
  | Except.error e => Except.error e
  | Except.ok reg =>
    match vuePass reg vueFiles
        { grouped := [], warnings := [], customComponentWarnings := [] } with
    | Except.error e => Except.error e
    | Except.ok st =>
      match jsPass jsScan jsFiles st with
      | Except.error e => Except.error e
      | Except.ok st2 =>
        Except.ok
          { groupedLocators := st2.grouped
            warnings := st2.warnings
            customComponentWarnings := st2.customComponentWarnings }

/-! ## The variant scanner (`part_005`)

The simpler `extractLocatorsFromVue` variant: double-quote-only,
case-sensitive patterns, a 50-character backward window for the element
context, the same key normalisation, and — unlike the enhanced pipeline —
a uniqueness loop that resolves key collisions with `_1`, `_2`, …
suffixes. -/

/-- The `LocatorInfo` of the variant scanner. -/
structure LocatorInfo5 where
  selector : String
  type : String
  element : String
  rawValue : String
deriving DecidableEq, Repr

/-- Its grouped table. -/
abbrev Grouped5 := List (String × List (String × LocatorInfo5))

/-- One entry of the variant's `locatorPatterns`. -/
structure LocatorPattern5 where
  scan : String → List (Nat × String)
  type : String
  selector : String → Option String

/-- The variant's `class` builder rejects `[`, doubled braces and `${`
(but not a bare brace). -/
def classSelector5 (val : String) : Option String :=
  if strContains val "[" || strContains val braceBraceStr ||
      strContains val dollarBraceStr then none
  else some ("." ++ jsJoin "." (jsSplitWs val))

/-- The variant's `locatorPatterns`, in source order. -/
def locatorPatterns5 : List LocatorPattern5 :=
  [ { scan := scanAttrD "data-testid", type := "data-testid",
      selector := fun v => some (attrSel "data-testid" v) },
    { scan := scanAttrD "id", type := "id", selector := fun v => some ("#" ++ v) },
    { scan := scanAttrD "class", type := "class", selector := classSelector5 },
    { scan := scanAttrD "name", type := "name",
      selector := fun v => some (attrSel "name" v) },
    { scan := scanAttrD "placeholder", type := "placeholder",
      selector := fun v => some (attrSel "placeholder" v) },
    { scan := scanAttrD "aria-label", type := "aria-label",
      selector := fun v => some (attrSel "aria-label" v) },
    { scan := scanAttrD "role", type := "role",
      selector := fun v => some (attrSel "role" v) },
    { scan := scanAttrD "data-xpath", type := "xpath", selector := fun v => some v },
    { scan := scanAttrD "xpath", type := "xpath", selector := fun v => some v } ]

/-- First (leftmost) match of `/<(\w+)[^>]*$/`: the last open tag in a
window, i.e. the first `<`+word position with no later `>`. -/
def findLastOpenTagGo : List Char → Nat → Option String
  | [], _ => none
  | _, 0 => none
  | '<' :: rest, fuel + 1 =>
    let w := rest.takeWhile isWordChar
    if !w.isEmpty && !rest.contains '>' then some ⟨w⟩
    else findLastOpenTagGo rest fuel
  | _ :: rest, fuel + 1 => findLastOpenTagGo rest fuel

/-- `extractElementContext(match, content)` of the variant: the tag name
found by `/<(\w+)[^>]*$/` in the 50 characters before the match, or
`"element"`. -/
def extractElementContext5 (content : List Char) (matchIndex : Nat) : String :=
  let before := substrNat content (matchIndex - 50) matchIndex
  match findLastOpenTagGo before (before.length + 1) with
  | some name => name
  | none => "element"

/-- The inline key construction of the variant (identical to
`generateEnhancedKey` with both flags off). -/
def makeKey5 (rawValue type : String) : String :=
  let key0 := normalizeKey rawValue
  if type = "class" then "class_" ++ key0
  else if type = "role" then lowerStr rawValue ++ "_role"
  else if type = "placeholder" then key0 ++ "_input"
  else if type = "xpath" then "xpath_" ++ key0
  else key0

/-- The variant's collision-resolving insertion: find the first unused
of `key`, `key_1`, `key_2`, … in the file's map and bind it. -/
def insertUnique5 (g : Grouped5) (group base : String) (info : LocatorInfo5) : Grouped5 :=
  let m := (lookupA g group).getD []
  let uniqueKey := freshKey m base
  jsSetA g group (jsSetA m uniqueKey info)

/-- Per-match body of the variant's pattern loop (source lines 130-180). -/
def stepMatch5 (templateContent keyGroup : String) (pat : LocatorPattern5)
    (g : Grouped5) (m : Nat × String) : Grouped5 :=
  let rawValue := m.2
  let element := extractElementContext5 templateContent.data m.1
  match pat.selector rawValue with
  | none => g
  | some sel =>
    let base := makeKey5 rawValue pat.type
    insertUnique5 g keyGroup base
      { selector := sel, type := pat.type, element := element, rawValue := rawValue }

/-- The variant's per-file processing: all nine patterns over the raw
template content (the variant performs no normalisation). -/
def processVueFile5 (templateContent keyGroup : String) (g : Grouped5) : Grouped5 :=
  locatorPatterns5.foldl
    (fun g2 pat => (pat.scan templateContent).foldl
      (stepMatch5 templateContent keyGroup pat) g2)
    g

/-- The variant `extractLocatorsFromVue(baseDir)`: one pass over the Vue
files, skipping files without a `<template>` section.  As in the
enhanced pipeline, a failing read throws out of the whole function. -/
def extractLocatorsFromVue5Go : List VueFile → Grouped5 → Except String Grouped5
  | [], g => Except.ok g
  | f :: rest, g =>
    match readFileE f with
    | Except.error e => Except.error e
    | Except.ok content =>
      match templateSection content with
      | none => extractLocatorsFromVue5Go rest g
      | some templateContent =>
        extractLocatorsFromVue5Go rest (processVueFile5 templateContent (slashPath f.name) g)

/-- The file loop of the variant `extractLocatorsFromVue`. -/
def extractLocatorsFromVue5 (files : List VueFile) : Except String Grouped5 :=
  extractLocatorsFromVue5Go files []

/-! ## The emitter (`extractLocators.ts`) -/

/-- ASCII uppercase of a character. -/
def upperChar (c : Char) : Char :=
  if c ≥ 'a' && c ≤ 'z' then Char.ofNat (c.toNat - 32) else c

/-- The one-character single-quote string. -/
def sq : String := ⟨[squote]⟩

/-- Wrap in single quotes. -/
def sqWrap (v : String) : String := sq ++ v ++ sq

/-- `key.replace(/_(\w)/g, (_, l) => l.toUpperCase())`. -/
def camelGo : List Char → List Char
  | [] => []
  | '_' :: c :: rest =>
    if isWordChar c then upperChar c :: camelGo rest
    else '_' :: camelGo (c :: rest)
  | c :: rest => c :: camelGo rest

/-- The snake-to-camel property-name conversion of
`generatePageObjectClasses`. -/
def propertyNameOf (key : String) : String :=
  let a := camelGo key.data
  let b :=
    match a with
    | c :: rest => (if isWordChar c then lowerChar c else c) :: rest
    | [] => []
  ⟨b.filter fun c => isAsciiAlpha c || (c ≥ '0' && c ≤ '9')⟩

/-- `.replace(/xpath/gi, '')`. -/
def removeXpathGo : List Char → Nat → List Char
  | s, 0 => s
  | [], _ => []
  | s@(c :: rest), fuel + 1 =>
    if isPrefixCI "xpath".data s then removeXpathGo (s.drop 5) fuel
    else c :: removeXpathGo rest fuel

/-- Trim leading/trailing underscores on a character list. -/
def trimUnderscoresL (s : List Char) : List Char :=
  ((s.dropWhile fun c => c = '_').reverse.dropWhile fun c => c = '_').reverse

/-- The cleaned property name: remove `xpath` substrings, trim
underscores, default `element`. -/
def finalPropertyNameOf (key : String) : String :=
  let p := propertyNameOf key
  let clean : String := ⟨trimUnderscoresL (removeXpathGo p.data (p.data.length + 1))⟩
  if clean = "" then "element" else clean

/-- Strip one `\.(vue|html|js|ts)$` extension. -/
def stripExt (s : List Char) : List Char :=
  if isPrefixL ".vue".data (s.reverse.take 4).reverse then s.take (s.length - 4)
  else if isPrefixL ".html".data (s.reverse.take 5).reverse then s.take (s.length - 5)
  else if isPrefixL ".js".data (s.reverse.take 3).reverse then s.take (s.length - 3)
  else if isPrefixL ".ts".data (s.reverse.take 3).reverse then s.take (s.length - 3)
  else s

/-- The class-name derivation shared by the three generators: slashes to
underscores, drop the extension, replace every non-word character by an
underscore, trim underscores. -/
def classNameOf (file : String) : String :=
  let r1 := file.data.map fun c => if c = '/' || c = '\\' then '_' else c
  let r2 := stripExt r1
  let r3 := r2.map fun c => if isWordChar c then c else '_'
  ⟨trimUnderscoresL r3⟩

/-- `info.rawValue.replace(/'/g, "\\'")` (also applied to selectors). -/
def escapeQuotes (s : String) : String :=
  ⟨s.data.foldr (fun c acc => if c = squote then '\\' :: squote :: acc else c :: acc) []⟩

/-- The `switch (info.type)` mapping a record to a Playwright locator
expression in `generatePageObjectClasses`. -/
def playwrightMethod (info : LocatorInfo) : String :=
  if info.type = "data-testid" then "page.getByTestId(" ++ sqWrap info.rawValue ++ ")"
  else if info.type = "data-test-id" then "page.getByTestId(" ++ sqWrap info.rawValue ++ ")"
  else if info.type = "data-test" then
    "page.locator(" ++ sqWrap ("[data-test=\"" ++ info.rawValue ++ "\"]") ++ ")"
  else if info.type = "id" then
    if lowerStr info.element = "strong" || lowerStr info.element = "xgrid" then
      "page.getByTestId(" ++ sqWrap info.rawValue ++ ")"
    else "page.locator(" ++ sqWrap ("#" ++ info.rawValue) ++ ")"
  else if info.type = "aria-label" then "page.getByLabel(" ++ sqWrap info.rawValue ++ ")"
  else if info.type = "role" then
    -- both branches of the common-interactive-roles test emit the same call
    if ["button", "link", "textbox", "combobox", "listbox", "checkbox", "radio",
        "tab", "menuitem"].contains (lowerStr info.rawValue) then
      "page.getByRole(" ++ sqWrap info.rawValue ++ ")"
    else "page.getByRole(" ++ sqWrap info.rawValue ++ ")"
  else if info.type = "placeholder" then
    "page.getByPlaceholder(" ++ sqWrap info.rawValue ++ ")"
  else if info.type = "name" then
    if ["input", "textarea", "select"].contains (lowerStr info.element) then
      "page.getByLabel(" ++ sqWrap info.rawValue ++ ")"
    else "page.locator(" ++ sqWrap ("[name=\"" ++ info.rawValue ++ "\"]") ++ ")"
  else if info.type = "class" then "page.locator(" ++ sqWrap info.selector ++ ")"
  else if info.type = "xpath" then
    "page.locator(" ++ sqWrap (escapeQuotes info.rawValue) ++ ")"
  else "page.locator(" ++ sqWrap info.selector ++ ")"

/-- The dynamic/conditional comment suffix used by the page-object
generator. -/
def dynCondPageComment (info : LocatorInfo) : String :=
  if info.isDynamic && info.isConditional then " - DYNAMIC & CONDITIONAL"
  else if info.isDynamic then " - DYNAMIC (may be repeated)"
  else if info.isConditional then " - CONDITIONAL (may not always be present)"
  else ""

/-- The dynamic/conditional comment suffix used by the locator-map
generators. -/
def dynCondMapComment (info : LocatorInfo) : String :=
  if info.isDynamic && info.isConditional then " - DYNAMIC & CONDITIONAL"
  else if info.isDynamic then " - DYNAMIC"
  else if info.isConditional then " - CONDITIONAL"
  else ""

/-- One declaration entry of a generated page-object class. -/
def locatorDeclaration (includeWarnings : Bool) (key : String) (info : LocatorInfo) : String :=
  let comment := "  // " ++ info.element ++ " with " ++ info.type ++ ": \"" ++
    info.rawValue ++ "\" (" ++ info.robustness ++ ")" ++ dynCondPageComment info ++
    (if info.parentContext ≠ "" then " - " ++ info.parentContext else "")
  let warningComment :=
    match info.warning with
    | some w => if includeWarnings then "\n  // WARNING: " ++ w else ""
    | none => ""
  comment ++ warningComment ++ "\n  readonly " ++ finalPropertyNameOf key ++ ": Locator;"

/-- One initialisation entry of a generated page-object class. -/
def locatorInitialization (key : String) (info : LocatorInfo) : String :=
  "    this." ++ finalPropertyNameOf key ++ " = " ++ playwrightMethod info ++ ";"

/-- `generatePageObjectClasses(locators, includeWarnings)`: one class
source text per file. -/
def generatePageObjectClasses (locators : Grouped) (includeWarnings : Bool) : List String :=
  locators.map fun fileEntry =>
    let className := classNameOf fileEntry.1 ++ "Page"
    let decls := fileEntry.2.map fun kv => locatorDeclaration includeWarnings kv.1 kv.2
    let inits := fileEntry.2.map fun kv => locatorInitialization kv.1 kv.2
    let classComment :=
      if includeWarnings then
        "// FRAGILE LOCATORS - Consider improving these with stable test attributes"
      else "// ROBUST PAGE OBJECT MODEL - Recommended for E2E testing"
    let dynamicWarning :=
      if fileEntry.2.any (fun kv => kv.2.isDynamic || kv.2.isConditional) then
        "\n// NOTE: Some locators are marked as DYNAMIC or CONDITIONAL - test carefully for element presence"
      else ""
    classComment ++ dynamicWarning ++ "\n// File: " ++ fileEntry.1 ++
      "\nimport \x7b Page, Locator \x7d from \x27@playwright/test\x27;\n\nexport class " ++
      className ++ " \x7b\n" ++ jsJoin "\n\n" decls ++
      "\n\n  constructor(protected page: Page) \x7b\n" ++ jsJoin "\n" inits ++
      "\n  \x7d\n\x7d"

/-- One entry line of the main locator map. -/
def mainMapEntry (key : String) (info : LocatorInfo) : String :=
  let comment := "    // " ++ info.element ++ " - " ++ info.type ++ ": \"" ++
    info.rawValue ++ "\" (" ++ info.robustness ++ ")" ++ dynCondMapComment info
  comment ++ "\n    " ++ key ++ ": " ++ sqWrap (escapeQuotes info.selector)

/-- One file block of the main locator map. -/
def mainMapBlock (fileEntry : String × List (String × LocatorInfo)) : String :=
  "  // Page Object for: " ++ fileEntry.1 ++ "\n  " ++ classNameOf fileEntry.1 ++
    ": \x7b\n" ++ jsJoin ",\n" (fileEntry.2.map fun kv => mainMapEntry kv.1 kv.2) ++
    "\n  \x7d"

/-- `generateMainLocatorMap(allLocators)`. -/
def generateMainLocatorMap (allLocators : Grouped) : String :=
  "// Auto-generated locator map for Page Object Model\n" ++
  "// Contains both robust (recommended) and fragile (needs improvement) locators\n" ++
  "// DYNAMIC = may be repeated, CONDITIONAL = may not always be present\n" ++
  "export const locatorMap = \x7b\n" ++
  jsJoin ",\n" (allLocators.map mainMapBlock) ++
  "\n\x7d;\n"

/-- One entry line of the fragile locator map. -/
def fragileMapEntry (key : String) (info : LocatorInfo) : String :=
  let comment := "    // " ++ info.element ++ " - " ++ info.type ++ ": \"" ++
    info.rawValue ++ "\" (NEEDS IMPROVEMENT)" ++ dynCondMapComment info
  comment ++ "\n    " ++ key ++ ": " ++ sqWrap (escapeQuotes info.selector)

/-- `generateFragileLocatorMap(locators)`. -/
def generateFragileLocatorMap (locators : Grouped) : String :=
  "// FRAGILE LOCATORS - These need stable test attributes\n" ++
  "// Use this map to identify which selectors should be improved\n" ++
  "// DYNAMIC = may be repeated, CONDITIONAL = may not always be present\n" ++
  "export const fragileLocatorMap = \x7b\n" ++
  jsJoin ",\n" (locators.map fun fileEntry =>
    "  // Fragile locators for: " ++ fileEntry.1 ++ "\n  " ++ classNameOf fileEntry.1 ++
      ": \x7b\n" ++ jsJoin ",\n" (fileEntry.2.map fun kv => fragileMapEntry kv.1 kv.2) ++
      "\n  \x7d") ++
  "\n\x7d;\n"

/-- The robust/fragile split of `extractLocators.ts` (lines 64-78): every
record goes to exactly one side, chosen solely by its robustness. -/
def splitRobustFragile (g : Grouped) : Grouped × Grouped :=
  g.foldl
    (fun acc fileEntry =>
      fileEntry.2.foldl
        (fun acc2 kv =>
          if kv.2.robustness = "robust" then
            (insertGrouped acc2.1 fileEntry.1 kv.1 kv.2, acc2.2)
          else (acc2.1, insertGrouped acc2.2 fileEntry.1 kv.1 kv.2))
        acc)
    ([], [])

/-- The four output artifacts written by the entry script. -/
structure Artifacts where
  pageObjects : String
  fragileLocators : String
  locatorMap : String
  fragileLocatorMap : String
deriving DecidableEq, Repr

/-- The header of `output/pageObjects.ts`. -/
def robustHeader : String :=
  "// ROBUST PAGE OBJECT MODEL CLASSES\n" ++
  "// These locators use stable test attributes and are recommended for E2E testing\n" ++
  "// NOTE: DYNAMIC elements may be repeated, CONDITIONAL elements may not always be present\n" ++
  "// \n" ++
  "// PLAYWRIGHT CONFIGURATION NOTE:\n" ++
  "// If using data-test-id attributes, configure Playwright to recognize them:\n" ++
  "// In playwright.config.ts: use: \x7b testIdAttribute: \x27data-test-id\x27 \x7d\n" ++
  "// (Choose either \x27data-testid\x27 or \x27data-test-id\x27 as your project standard)\n\n"

/-- The header of `output/fragileLocators.ts`. -/
def fragileHeader : String :=
  "// FRAGILE LOCATOR CLASSES - NEEDS IMPROVEMENT\n" ++
  "// These locators lack stable test attributes and may break easily\n" ++
  "// Consider adding data-testid, data-test, or id attributes to improve robustness\n" ++
  "// NOTE: DYNAMIC elements may be repeated, CONDITIONAL elements may not always be present\n\n"

/-- The trailer of `output/fragileLocators.ts`. -/
def fragileTrailer : String :=
  "\n\n// IMPROVEMENT SUGGESTIONS:\n" ++
  "// 1. Add data-testid attributes to interactive elements\n" ++
  "// 2. Use semantic HTML with proper roles and labels\n" ++
  "// 3. Avoid relying on class names or complex XPath selectors\n" ++
  "// 4. Review the warnings above for specific recommendations\n" ++
  "// 5. For DYNAMIC elements, ensure selectors work with multiple instances\n" ++
  "// 6. For CONDITIONAL elements, add existence checks in tests"

/-- The entry script of `extractLocators.ts`: run the extraction and
render the four artifacts; any exception reaches the top-level `catch`,
which reports the error and exits nonzero (the `Except.error` case). -/
def runExtraction (constantsOf : String → String → List ConstantDefinition)
    (jsScan : JsScanners) (initialRegistry : Registry)
    (vueFiles jsFiles : List VueFile) : Except String Artifacts :=
  match extractLocatorsFromVue constantsOf jsScan initialRegistry vueFiles jsFiles with
  | Except.error e => Except.error e
  | Except.ok out =>
    let split := splitRobustFragile out.groupedLocators
    Except.ok
      { pageObjects := robustHeader ++ jsJoin "\n\n" (generatePageObjectClasses split.1 false)
        fragileLocators := fragileHeader ++
          jsJoin "\n\n" (generatePageObjectClasses split.2 true) ++ fragileTrailer
        locatorMap := generateMainLocatorMap out.groupedLocators
        fragileLocatorMap := generateFragileLocatorMap split.2 }

/-! ## Supporting lemmas -/

theorem lookupA_mem {α : Type} {m : List (String × α)} {k : String} {v : α}
    (h : lookupA m k = some v) : (k, v) ∈ m := by
  induction m with
  | nil => simp [lookupA] at h
  | cons hd tl ih =>
    obtain ⟨k₀, w⟩ := hd
    by_cases hk : k₀ = k
    · subst hk
      simp [lookupA] at h
      simp [h]
    · simp [lookupA, hk] at h
      exact List.mem_cons_of_mem _ (ih h)

theorem mem_jsSetA {α : Type} {m : List (String × α)} {k : String} {v : α}
    {e : String × α} (h : e ∈ jsSetA m k v) : e = (k, v) ∨ e ∈ m := by
  induction m with
  | nil => simpa [jsSetA] using h
  | cons hd tl ih =>
    obtain ⟨k₀, w⟩ := hd
    by_cases hk : k₀ = k
    · subst hk
      simp [jsSetA] at h
      rcases h with h | h
      · exact Or.inl h
      · exact Or.inr (List.mem_cons_of_mem _ h)
    · simp [jsSetA, hk] at h
      rcases h with h | h
      · exact Or.inr (by simp [h])
      · rcases ih h with h2 | h2
        · exact Or.inl h2
        · exact Or.inr (List.mem_cons_of_mem _ h2)

theorem lookupA_append_of_some {α : Type} {m : List (String × α)} {k : String}
    {v : α} (l : List (String × α)) (h : lookupA m k = some v) :
    lookupA (m ++ l) k = some v := by
  induction m with
  | nil => simp [lookupA] at h
  | cons hd tl ih =>
    obtain ⟨k₀, w⟩ := hd
    by_cases hk : k₀ = k
    · simp [lookupA, hk] at h ⊢
      exact h
    · simp [lookupA, hk] at h ⊢
      exact ih h

theorem foldl_preserve {α β : Type} {P : α → Prop} {f : α → β → α}
    (h : ∀ a b, P a → P (f a b)) :
    ∀ (l : List β) (a : α), P a → P (l.foldl f a) := by
  intro l
  induction l with
  | nil => intro a ha; simpa using ha
  | cons hd tl ih =>
    intro a ha
    simpa using ih (f a hd) (h a hd ha)

theorem containsL_of_cons {a : Char} {p s : List Char}
    (h : containsL (a :: p) s = true) : containsL p s = true := by
  induction s with
  | nil => simp [containsL, isPrefixL] at h
  | cons c rest ih =>
    simp only [containsL, Bool.or_eq_true] at h ⊢
    rcases h with h | h
    · simp only [isPrefixL, Bool.and_eq_true] at h
      right
      -- the prefix of the longer pattern at `c :: rest` puts `p` at `rest`
      cases p with
      | nil => cases rest <;> simp [containsL, isPrefixL]
      | cons b q =>
        -- isPrefixL (b :: q) rest holds, so p is a prefix of rest, hence contained
        have hp : isPrefixL (b :: q) rest = true := h.2
        clear ih h
        induction rest with
        | nil => simp [isPrefixL] at hp
        | cons d ds ihr =>
          simp only [containsL, Bool.or_eq_true]
          left
          exact hp
    · exact Or.inr (ih h)

/-- All records of a grouped table satisfy `P`. -/
def allRecords (P : LocatorInfo → Prop) (g : Grouped) : Prop :=
  ∀ fe ∈ g, ∀ kv ∈ fe.2, P kv.2

theorem allRecords_insertGrouped {P : LocatorInfo → Prop} {g : Grouped}
    {group key : String} {info : LocatorInfo}
    (hg : allRecords P g) (hi : P info) :
    allRecords P (insertGrouped g group key info) := by
  intro fe hfe kv hkv
  rcases mem_jsSetA hfe with hfe1 | hfe1
  · subst hfe1
    rcases mem_jsSetA hkv with hkv1 | hkv1
    · subst hkv1; exact hi
    · cases hlk : lookupA g group with
      | none => simp [hlk] at hkv1
      | some m =>
        have := lookupA_mem hlk
        exact hg (group, m) this kv (by simpa [hlk] using hkv1)
  · exact hg fe hfe1 kv hkv

/-- String-level substring relation (for emitted artifacts). -/
def strInfix (needle hay : String) : Prop :=
  needle.data <:+: hay.data

theorem strInfix_refl (s : String) : strInfix s s := List.infix_refl s.data

theorem strInfix_append_left {n h : String} (h2 : String) (hi : strInfix n h) :
    strInfix n (h ++ h2) := by
  unfold strInfix at hi ⊢
  rw [String.data_append]
  exact hi.trans (List.prefix_append h.data h2.data).isInfix

theorem strInfix_append_right {n h2 : String} (h : String) (hi : strInfix n h2) :
    strInfix n (h ++ h2) := by
  unfold strInfix at hi ⊢
  rw [String.data_append]
  exact hi.trans (by simpa using (List.suffix_append h.data h2.data).isInfix)

theorem strInfix_mem_jsJoin {x : String} (sep : String) :
    ∀ l : List String, x ∈ l → strInfix x (jsJoin sep l) := by
  intro l
  induction l with
  | nil => intro h; simp at h
  | cons y rest ih =>
    intro hx
    cases rest with
    | nil =>
      simp at hx
      subst hx
      exact strInfix_refl x
    | cons z rest2 =>
      rcases List.mem_cons.mp hx with rfl | hmem
      · show strInfix x (x ++ sep ++ jsJoin sep (z :: rest2))
        exact strInfix_append_left _ (strInfix_append_left _ (strInfix_refl x))
      · show strInfix x (y ++ sep ++ jsJoin sep (z :: rest2))
        exact strInfix_append_right _ (ih hmem)

theorem collapseRunsL_good {bad : Char → Bool} {rep c : Char} {l : List Char}
    (h : bad c = false) :
    collapseRunsL bad rep (c :: l) = c :: collapseRunsL bad rep l := by
  simp [collapseRunsL, h]

theorem collapseRunsL_bad_nil {bad : Char → Bool} {rep c : Char} (h : bad c = true) :
    collapseRunsL bad rep [c] = [rep] := by
  simp [collapseRunsL, h]

theorem collapseRunsL_bad_bad {bad : Char → Bool} {rep c d : Char} {t : List Char}
    (hc : bad c = true) (hd : bad d = true) :
    collapseRunsL bad rep (c :: d :: t) = collapseRunsL bad rep (d :: t) := by
  simp [collapseRunsL, hc, hd]

theorem collapseRunsL_bad_good {bad : Char → Bool} {rep c d : Char} {t : List Char}
    (hc : bad c = true) (hd : bad d = false) :
    collapseRunsL bad rep (c :: d :: t) = rep :: collapseRunsL bad rep (d :: t) := by
  simp [collapseRunsL, hc, hd]

theorem mem_collapseRunsL {bad : Char → Bool} {rep : Char} :
    ∀ {l : List Char} {c : Char}, c ∈ collapseRunsL bad rep l →
    c = rep ∨ bad c = false := by
  intro l
  induction l with
  | nil => intro c hc; simp [collapseRunsL] at hc
  | cons c₀ rest ih =>
    intro c hc
    cases hb : bad c₀ with
    | false =>
      rw [collapseRunsL_good hb] at hc
      rcases List.mem_cons.mp hc with rfl | hc2
      · exact Or.inr hb
      · exact ih hc2
    | true =>
      cases rest with
      | nil =>
        rw [collapseRunsL_bad_nil hb] at hc
        simp at hc
        exact Or.inl hc
      | cons d t =>
        cases hd : bad d with
        | true =>
          rw [collapseRunsL_bad_bad hb hd] at hc
          exact ih hc
        | false =>
          rw [collapseRunsL_bad_good hb hd] at hc
          rcases List.mem_cons.mp hc with rfl | hc2
          · exact Or.inl rfl
          · exact ih hc2

/-- Adjacent characters of a collapsed list never form a doubled `rep`
(when `rep` itself belongs to the collapsed class): runs collapse to a
*single* replacement character. -/
theorem chain_collapseRunsL {bad : Char → Bool} {rep : Char} (hrep : bad rep = true) :
    ∀ l : List Char,
    List.Chain' (fun x y => ¬(x = rep ∧ y = rep)) (collapseRunsL bad rep l) := by
  intro l
  induction l with
  | nil => simp [collapseRunsL]
  | cons c₀ rest ih =>
    cases hb : bad c₀ with
    | false =>
      have hne : c₀ ≠ rep := fun hcon => by rw [hcon, hrep] at hb; exact absurd hb (by simp)
      rw [collapseRunsL_good hb, List.chain'_cons']
      exact ⟨fun y _ hcon => hne hcon.1, ih⟩
    | true =>
      cases rest with
      | nil => rw [collapseRunsL_bad_nil hb]; simp
      | cons d t =>
        cases hd : bad d with
        | true => rw [collapseRunsL_bad_bad hb hd]; exact ih
        | false =>
          have hdne : d ≠ rep := fun hcon => by rw [hcon, hrep] at hd; exact absurd hd (by simp)
          rw [collapseRunsL_bad_good hb hd, List.chain'_cons']
          refine ⟨?_, ih⟩
          intro y hy
          rw [collapseRunsL_good hd] at hy
          simp at hy
          subst hy
          exact fun hcon => hdne hcon.2

/-- The normalised key uses only lowercase alphanumerics and
underscores. -/
theorem normalizeKey_charset (rawValue : String) :
    ∀ c ∈ (normalizeKey rawValue).data, isLowerDigit c = true ∨ c = '_' := by
  intro c hc
  unfold normalizeKey trimUnderscores at hc
  simp only at hc
  have h1 : c ∈ (lowerCollapse rawValue '_').data := by
    have h2 := List.mem_reverse.mp hc
    have h3 := (List.dropWhile_suffix (fun ch => ch = '_')).subset h2
    have h4 := List.mem_reverse.mp h3
    exact (List.dropWhile_suffix (fun ch => ch = '_')).subset h4
  unfold lowerCollapse at h1
  rcases mem_collapseRunsL h1 with h | h
  · exact Or.inr h
  · exact Or.inl (by simpa using h)

theorem head?_dropWhile_ne {p : Char → Bool} {l : List Char} {c : Char}
    (hp : p c = true) : (l.dropWhile p).head? ≠ some c := by
  intro hcon
  have hne : l.dropWhile p ≠ [] := by
    intro h
    rw [h] at hcon
    simp at hcon
  have hnot := List.head_dropWhile_not p l hne
  rw [List.head?_eq_head hne] at hcon
  have : (l.dropWhile p).head hne = c := by simpa using hcon
  rw [this, hp] at hnot
  simp at hnot

theorem head?_of_prefix {l₁ l₂ : List Char} (h : l₁ <+: l₂) (hne : l₁ ≠ []) :
    l₂.head? = l₁.head? := by
  obtain ⟨t, rfl⟩ := h
  cases l₁ with
  | nil => exact absurd rfl hne
  | cons a b => simp

/-- The normalised key never starts with an underscore. -/
theorem normalizeKey_no_leading (rawValue : String) :
    (normalizeKey rawValue).data.head? ≠ some '_' := by
  unfold normalizeKey trimUnderscores
  intro hcon
  simp only at hcon
  set A := ((lowerCollapse rawValue '_').data.dropWhile fun c => c = '_') with hA
  set B := (A.reverse.dropWhile fun c => c = '_').reverse with hB
  have hBpre : B <+: A := by
    rw [hB]
    rw [show A = A.reverse.reverse by simp]
    exact (List.reverse_prefix).mpr (by simpa using List.dropWhile_suffix fun c => c = '_')
  have hBne : B ≠ [] := by
    intro h
    rw [h] at hcon
    simp at hcon
  have hhead : A.head? = B.head? := head?_of_prefix hBpre hBne
  have : A.head? = some '_' := by rw [hhead]; exact hcon
  exact head?_dropWhile_ne (by simp) this

/-- The normalised key never ends with an underscore. -/
theorem normalizeKey_no_trailing (rawValue : String) :
    (normalizeKey rawValue).data.getLast? ≠ some '_' := by
  unfold normalizeKey trimUnderscores
  intro hcon
  simp only at hcon
  rw [List.getLast?_reverse] at hcon
  exact head?_dropWhile_ne (by simp) hcon

/-- The normalised key never contains two adjacent underscores. -/
theorem normalizeKey_no_double (rawValue : String) :
    List.Chain' (fun x y => ¬(x = '_' ∧ y = '_')) (normalizeKey rawValue).data := by
  have hchain := @chain_collapseRunsL (fun c => !isLowerDigit c) '_' (by decide)
    (lowerStr rawValue).data
  unfold normalizeKey trimUnderscores lowerCollapse
  simp only
  apply hchain.infix
  have h1 : ((lowerCollapse rawValue '_').data.dropWhile fun c => c = '_') <:+
      (lowerCollapse rawValue '_').data := List.dropWhile_suffix _
  set A := ((lowerCollapse rawValue '_').data.dropWhile fun c => c = '_') with hA
  have h2 : (A.reverse.dropWhile fun c => c = '_').reverse <+: A := by
    rw [show A = A.reverse.reverse by simp]
    exact (List.reverse_prefix).mpr (by simpa using List.dropWhile_suffix fun c => c = '_')
  have h3 : (A.reverse.dropWhile fun c => c = '_').reverse <:+: (lowerCollapse rawValue '_').data :=
    List.IsInfix.trans h2.isInfix h1.isInfix
  simpa [lowerCollapse] using h3

/-! ## Claim C3: the robustness classifier -/

/-- The robustness condition of claim C3, formalised from the claim's
own wording: an attribute of the stated priority list with a non-empty
value, or an XPath attribute containing `//input`, `//button`, a
text-content predicate, or the substring `btn`, or a class attribute
containing `btn`. -/
def c3ClaimRobust (attributes : Attrs) : Bool :=
  (["data-testid", "data-test-id", "data-test", "id", "name", "role",
    "aria-label", "placeholder"].any fun a =>
      match lookupA attributes a with
      | some v => v ≠ ""
      | none => false) ||
  (let xv := xpathValueOf attributes
   xv ≠ "" && (containsCI xv "//input" || containsCI xv "//button" ||
     containsCI xv "contains(text()" || containsCI xv "text()=" ||
     containsCI xv "btn")) ||
  containsCI ((lookupA attributes "class").getD "") "btn"

/-- The robustness condition the code actually implements, written as
one disjunction: a `getBy*`-compatible attribute (the claim's list plus
`title` and `alt`) with a value that is non-empty after trimming, or a
non-empty XPath attribute passing `robustXPathTest` (the claim's
patterns plus `button[` and `input[` and the `[@…btn…]` form) or the
interactive-element-with-text test, or a non-empty class attribute
containing `btn` case-insensitively. -/
def classifyRobustCond (element : String) (attributes : Attrs) : Bool :=
  (getByCompatibleAttributes.any fun attr => attrNonBlank attributes attr) ||
  (let xv := xpathValueOf attributes
   xv ≠ "" && (robustXPathTest xv || isInteractiveElementWithText element xv)) ||
  (let cv := (lookupA attributes "class").getD ""
   cv ≠ "" && containsCI cv "btn")

/-- Claim C3 as stated is false on the code: an element whose only
attribute is a non-empty `title` is classified robust (because `title`
is `getByTitle()`-compatible), while the claim's condition — whose
attribute list stops at `placeholder` — calls it fragile. -/
theorem C3_counterexample :
    (classifyElement "div" [("title", "x")]).1 = "robust" ∧
    c3ClaimRobust [("title", "x")] = false := by
  constructor
  · rfl
  · rfl

/-- Claim C3 amended: `robustness = robust` iff an attribute of the
extended compatibility list `{data-testid, data-test-id, data-test, id,
name, role, aria-label, placeholder, title, alt}` has a value non-empty
after trimming whitespace, or the element's XPath attribute is non-empty
and matches the interactive heuristics (`//input`, `//button`,
`button[`, `input[`, the substring `btn`, the `[@…btn…]` form, or a
text-content predicate — also via the interactive-element-with-text
rule), or the class attribute is non-empty and contains `btn`
case-insensitively. -/
theorem C3_amended (element : String) (attributes : Attrs) :
    (classifyElement element attributes).1 = "robust" ↔
    classifyRobustCond element attributes = true := by
  unfold classifyElement classifyRobustCond
  cases h1 : (getByCompatibleAttributes.any fun attr => attrNonBlank attributes attr) with
  | true => simp [h1]
  | false =>
    simp only [h1, Bool.false_eq_true, if_false, Bool.false_or]
    by_cases h2 : xpathValueOf attributes ≠ "" ∧
        (robustXPathTest (xpathValueOf attributes) ||
         isInteractiveElementWithText element (xpathValueOf attributes)) = true
    · by_cases h3 : (lookupA attributes "class").getD "" ≠ "" ∧
          containsCI ((lookupA attributes "class").getD "") "btn" = true
      · simp [h2.1, h2.2, h3.1, h3.2]
      · simp only [Classical.not_and_iff_or_not_not] at h3
        rcases h3 with h3 | h3
        · simp only [ne_eq, not_not] at h3
          simp [h2.1, h2.2, h3]
        · simp only [Bool.not_eq_true] at h3
          simp [h2.1, h2.2, h3]
    · simp only [Classical.not_and_iff_or_not_not] at h2
      by_cases h3 : (lookupA attributes "class").getD "" ≠ "" ∧
          containsCI ((lookupA attributes "class").getD "") "btn" = true
      · rcases h2 with h2 | h2
        · simp only [ne_eq, not_not] at h2
          simp [h2, h3.1, h3.2]
        · simp only [Bool.not_eq_true] at h2
          simp [h2, h3.1, h3.2]
      · simp only [Classical.not_and_iff_or_not_not] at h3
        rcases h2 with h2 | h2 <;> rcases h3 with h3 | h3 <;>
          simp only [ne_eq, not_not, Bool.not_eq_true] at h2 h3 <;>
          simp [h2, h3]

/-- Witness for the amended C3 at the concrete counterexample input. -/
theorem C3_amended_witness :
    (classifyElement "div" [("title", "x")]).1 = "robust" ↔
    classifyRobustCond "div" [("title", "x")] = true :=
  C3_amended "div" [("title", "x")]

/-! ## Claim C5: the key generator -/

/-- The key of claim C5, formalised from the claim's own wording: the
normalised value with the type-specific affix — in particular the `role`
suffix applied to the *normalised* key. -/
def c5ClaimKey (rawValue type : String) (isDynamic isConditional : Bool) : String :=
  let key0 := normalizeKey rawValue
  let key1 :=
    if type = "class" then "class_" ++ key0
    else if type = "role" then key0 ++ "_role"
    else if type = "placeholder" then key0 ++ "_input"
    else if type = "xpath" then "xpath_" ++ key0
    else key0
  if isDynamic && isConditional then key1 ++ "_dynamic_conditional"
  else if isDynamic then key1 ++ "_dynamic"
  else if isConditional then key1 ++ "_conditional"
  else key1

/-- Claim C5 as stated is false on the code: for `role` the source uses
the raw lowercased value (`rawValue.toLowerCase()`), not the normalised
key, so a role value containing a space keeps the space. -/
theorem C5_counterexample :
    generateEnhancedKey "a b" "role" false false = "a b_role" ∧
    c5ClaimKey "a b" "role" false false = "a_b_role" ∧
    generateEnhancedKey "a b" "role" false false ≠
      c5ClaimKey "a b" "role" false false := by
  refine ⟨rfl, rfl, ?_⟩
  decide

/-- Claim C5 amended: the key is built exactly as claimed
(normalisation, then type affix, then detector-flag suffixes) for every
type except `role`; for `role` the affixed base is the raw value
lowercased *without* normalisation, suffixed `_role`.  The
normalisation itself behaves as claimed: the result uses only lowercase
alphanumerics and underscores, never starts or ends with an underscore,
and never contains a doubled underscore. -/
theorem C5_amended :
    (∀ rawValue type d c, type ≠ "role" →
      generateEnhancedKey rawValue type d c = c5ClaimKey rawValue type d c) ∧
    (∀ rawValue d c,
      generateEnhancedKey rawValue "role" d c =
        (let key1 := lowerStr rawValue ++ "_role"
         if d && c then key1 ++ "_dynamic_conditional"
         else if d then key1 ++ "_dynamic"
         else if c then key1 ++ "_conditional"
         else key1)) ∧
    (∀ rawValue, ∀ ch ∈ (normalizeKey rawValue).data, isLowerDigit ch = true ∨ ch = '_') ∧
    (∀ rawValue, (normalizeKey rawValue).data.head? ≠ some '_') ∧
    (∀ rawValue, (normalizeKey rawValue).data.getLast? ≠ some '_') ∧
    (∀ rawValue,
      List.Chain' (fun x y => ¬(x = '_' ∧ y = '_')) (normalizeKey rawValue).data) := by
  refine ⟨?_, ?_, ?_, normalizeKey_no_leading, normalizeKey_no_trailing,
    normalizeKey_no_double⟩
  · intro rawValue type d c h
    unfold generateEnhancedKey c5ClaimKey
    by_cases h1 : type = "class"
    · simp [h1]
    · by_cases h2 : type = "placeholder"
      · simp [h1, h2, h]
      · by_cases h3 : type = "xpath"
        · simp [h1, h2, h3, h]
        · simp [h1, h2, h3, h]
  · intro rawValue d c
    unfold generateEnhancedKey
    simp
  · intro rawValue ch hch
    exact normalizeKey_charset rawValue ch hch

/-- Witness for the amended C5 at concrete inputs. -/
theorem C5_amended_witness :
    generateEnhancedKey "Logout-BTN" "data-testid" true false =
      c5ClaimKey "Logout-BTN" "data-testid" true false := by
  have h := C5_amended.1 "Logout-BTN" "data-testid" true false (by decide)
  exact h

/-! ## Claim C8: the class selector builder -/

theorem contains_braceBrace_lbrace {v : String}
    (h : strContains v braceBraceStr = true) : strContains v lbraceStr = true :=
  containsL_of_cons h

theorem contains_dollarBrace_lbrace {v : String}
    (h : strContains v dollarBraceStr = true) : strContains v lbraceStr = true :=
  containsL_of_cons h

/-- Claim C8 confirmed: `class="a b"` composes to the compound selector
`.a.b`; the builder returns `null` exactly when the raw value contains
an expression-delimiter character (`[` or an opening brace — the
source's four checks `[`, doubled brace, `${`, bare brace collapse to
these two); and a `null` selector makes the per-match step leave the
state untouched — no record, no error. -/
theorem C8 :
    (classSelector "a b" = some ".a.b") ∧
    (∀ v, classSelector v = none ↔
      (strContains v "[" = true ∨ strContains v lbraceStr = true)) ∧
    (∀ registry normalizedTemplate keyGroup pat g m,
      pat.selector (resolveConstantReference registry m.2).1 = none →
      stepMatch registry normalizedTemplate keyGroup pat g m = g) := by
  refine ⟨rfl, ?_, ?_⟩
  · intro v
    have hiff : classSelector v = none ↔
        (strContains v "[" || strContains v braceBraceStr ||
         strContains v dollarBraceStr || strContains v lbraceStr) = true := by
      unfold classSelector
      by_cases hc : (strContains v "[" || strContains v braceBraceStr ||
          strContains v dollarBraceStr || strContains v lbraceStr) = true
      · simp [hc]
      · simp [hc]
    rw [hiff]
    simp only [Bool.or_eq_true]
    constructor
    · rintro (((h | h) | h) | h)
      · exact Or.inl h
      · exact Or.inr (contains_braceBrace_lbrace h)
      · exact Or.inr (contains_dollarBrace_lbrace h)
      · exact Or.inr h
    · rintro (h | h)
      · exact Or.inl (Or.inl (Or.inl h))
      · exact Or.inr h
  · intro registry normalizedTemplate keyGroup pat g m h
    unfold stepMatch
    simp only [h]

/-- Witness for C8 at a concrete dropped match: a class value containing
`[` produces no record and no error. -/
theorem C8_witness :
    (stepMatch [] "" "f.vue"
      { scan := scanAttrQ "class" true, type := "class",
        selector := classSelector, patternIsDynamic := false }
      [] (0, "a[b") = []) ∧
    (classSelector "a[b" = none ↔
      (strContains "a[b" "[" = true ∨ strContains "a[b" lbraceStr = true)) :=
  ⟨C8.2.2 [] "" "f.vue" _ [] (0, "a[b") (by decide), C8.2.1 "a[b"⟩

/-! ## Claim C9: determinism / idempotence -/

/-- Claim C9 confirmed: the pipeline is a pure function of its inputs.
The first conjunct shows the output is independent of any pre-existing
constants-registry state (the source clears the global registry on
entry), so no state survives between runs; the second is two-run
determinism — equal input files give byte-identical artifacts, key
numbering included. -/
theorem C9 :
    (∀ constantsOf jsScan reg1 reg2 vueFiles jsFiles,
      runExtraction constantsOf jsScan reg1 vueFiles jsFiles =
      runExtraction constantsOf jsScan reg2 vueFiles jsFiles) ∧
    (∀ constantsOf jsScan reg vueFiles1 vueFiles2 jsFiles1 jsFiles2,
      vueFiles1 = vueFiles2 → jsFiles1 = jsFiles2 →
      runExtraction constantsOf jsScan reg vueFiles1 jsFiles1 =
      runExtraction constantsOf jsScan reg vueFiles2 jsFiles2) := by
  constructor
  · intro c j r1 r2 v f
    rfl
  · intro c j r v1 v2 f1 f2 h1 h2
    rw [h1, h2]

/-- Witness for C9 at concrete inputs. -/
theorem C9_witness :
    runExtraction (fun _ _ => []) ⟨fun _ => [], fun _ => []⟩ []
      [{ name := "a.vue", content := some "<template><i id=\"x\"></i></template>" }] [] =
    runExtraction (fun _ _ => []) ⟨fun _ => [], fun _ => []⟩ []
      [{ name := "a.vue", content := some "<template><i id=\"x\"></i></template>" }] [] :=
  C9.2 (fun _ _ => []) ⟨fun _ => [], fun _ => []⟩ [] _ _ _ _ rfl rfl

/-! ## Claim C10: the JS/TS-path record invariant -/

/-- The invariant claimed for records created from JS/TS sources. -/
def jsRecordInvariant (info : LocatorInfo) : Prop :=
  info.isDynamic = true ∧ info.isConditional = false ∧
  info.robustness = "robust" ∧ info.testRelevance = "high" ∧
  (info.type = "data-testid" ∨ info.type = "id")

theorem jsCreateElementStep_invariant {keyGroup : String} {g : Grouped}
    {m : String × String} (hg : allRecords jsRecordInvariant g) :
    allRecords jsRecordInvariant (jsCreateElementStep keyGroup g m) := by
  unfold jsCreateElementStep
  cases propMatch "data-testid" m.2 with
  | some v =>
    simp only
    exact allRecords_insertGrouped hg (by simp [jsRecordInvariant])
  | none =>
    cases propMatch "id" m.2 with
    | some v =>
      simp only
      exact allRecords_insertGrouped hg (by simp [jsRecordInvariant])
    | none => simpa using hg

theorem jsTemplateStringStep_invariant {keyGroup : String} {g : Grouped}
    {htmlContent : String} (hg : allRecords jsRecordInvariant g) :
    allRecords jsRecordInvariant (jsTemplateStringStep keyGroup g htmlContent) := by
  unfold jsTemplateStringStep
  exact foldl_preserve
    (fun g2 m ha => allRecords_insertGrouped ha (by simp [jsRecordInvariant]))
    _ g hg

theorem processJavaScriptContent_invariant {jsScan : JsScanners}
    {content keyGroup : String} {g : Grouped}
    (hg : allRecords jsRecordInvariant g) :
    allRecords jsRecordInvariant (processJavaScriptContent jsScan content keyGroup g) := by
  unfold processJavaScriptContent
  apply foldl_preserve (fun g2 m hcur => jsTemplateStringStep_invariant hcur)
  exact foldl_preserve (fun g2 m hcur => jsCreateElementStep_invariant hcur) _ g hg

/-- Claim C10 confirmed: every record the JS/TS path creates — through
any `createElement`/`h()` match or template-string match — has
`isDynamic = true`, `isConditional = false`, `robustness = robust`,
`testRelevance = high`, and type `data-testid` or `id`. -/
theorem C10 (jsScan : JsScanners) (content keyGroup : String)
    (fe : String × List (String × LocatorInfo)) (kv : String × LocatorInfo)
    (hfe : fe ∈ processJavaScriptContent jsScan content keyGroup [])
    (hkv : kv ∈ fe.2) :
    kv.2.isDynamic = true ∧ kv.2.isConditional = false ∧
    kv.2.robustness = "robust" ∧ kv.2.testRelevance = "high" ∧
    (kv.2.type = "data-testid" ∨ kv.2.type = "id") := by
  have h : allRecords jsRecordInvariant
      (processJavaScriptContent jsScan content keyGroup []) :=
    processJavaScriptContent_invariant (by intro fe hfe; simp at hfe)
  exact h fe hfe kv hkv

/-- A record produced by a concrete `createElement` match, for the C10
witness. -/
def jsWitnessRecord : LocatorInfo :=
  { selector := "[data-testid=\"x\"]"
    type := "data-testid"
    element := "div"
    rawValue := "x"
    robustness := "robust"
    testRelevance := "high"
    warning := none
    isDynamic := true
    isConditional := false
    vueDirectives := []
    customComponent := false
    parentContext := "JS createElement"
    resolvedFromConstant := none }

/-- Witness for C10 at a concrete `createElement` match. -/
theorem C10_witness :
    jsWitnessRecord.isDynamic = true ∧ jsWitnessRecord.isConditional = false ∧
    jsWitnessRecord.robustness = "robust" ∧ jsWitnessRecord.testRelevance = "high" ∧
    (jsWitnessRecord.type = "data-testid" ∨ jsWitnessRecord.type = "id") :=
  C10
    { createElementMatches := fun _ => [("div", "data-testid: \x27x\x27")],
      templateStringMatches := fun _ => [] }
    "c" "g.ts (JS/TS)"
    ("g.ts (JS/TS)", [("x", jsWitnessRecord)]) ("x", jsWitnessRecord)
    (by decide) (by decide)

/-! ## Claim C6: fragile warnings -/

/-- A record carries a warning exactly when it is fragile. -/
def warnIffFragile (info : LocatorInfo) : Prop :=
  info.warning.isSome = true ↔ info.robustness = "fragile"

theorem stepMatch_warnIff {reg : Registry} {t kg : String} {pat : LocatorPattern}
    {g : Grouped} {m : Nat × String} (hg : allRecords warnIffFragile g) :
    allRecords warnIffFragile (stepMatch reg t kg pat g m) := by
  unfold stepMatch
  cases hsel : pat.selector (resolveConstantReference reg m.2).1 with
  | none => simpa [hsel] using hg
  | some sel =>
    simp only [hsel]
    apply allRecords_insertGrouped hg
    by_cases hcls :
        (classifyElement (extractElementWithAttributesEnhanced m.1 t).element
          (jsSetA
            (match (match (resolveConstantReference reg m.2).2 with
                    | some cname => some (cname ++ " → " ++ (resolveConstantReference reg m.2).1)
                    | none => none) with
             | some r => jsSetA (extractElementWithAttributesEnhanced m.1 t).attributes
                "resolvedFromConstant" r
             | none => (extractElementWithAttributesEnhanced m.1 t).attributes)
            pat.type (resolveConstantReference reg m.2).1)).1 = "fragile"
    · simp [warnIffFragile, hcls]
    · simp [warnIffFragile, hcls]

theorem fallbackStep_warnIff {t kg : String} {g : Grouped} {m : Nat × String × String}
    (hg : allRecords warnIffFragile g) :
    allRecords warnIffFragile (fallbackStep t kg g m) := by
  unfold fallbackStep
  simp only []
  split
  · exact hg
  · cases hx : generateFallbackXPath (extractElementWithAttributesEnhanced m.1 t).element
      (extractElementWithAttributesEnhanced m.1 t).attributes (jsTrim m.2.2) with
    | none => simpa [hx] using hg
    | some xpath =>
      simp only [hx]
      split
      · exact hg
      · apply allRecords_insertGrouped hg
        by_cases hcls : (classifyElement
            (extractElementWithAttributesEnhanced m.1 t).element
            (jsSetA (extractElementWithAttributesEnhanced m.1 t).attributes
              "xpath" xpath)).1 = "fragile"
        · simp [warnIffFragile, hcls]
        · simp [warnIffFragile, hcls]

theorem detectElements_warnIff {t kg : String} {g : Grouped}
    (hg : allRecords warnIffFragile g) :
    allRecords warnIffFragile (detectElementsWithoutTestAttributes t kg g) := by
  unfold detectElementsWithoutTestAttributes
  exact foldl_preserve
    (fun g2 ms h2 =>
      foldl_preserve (fun g3 m3 h3 => fallbackStep_warnIff h3) _ g2 h2)
    _ g hg

theorem processTemplateContent_warnIff {reg : Registry}
    {templateContent keyGroup filename : String} {st : TState}
    (hst : allRecords warnIffFragile st.grouped) :
    allRecords warnIffFragile
      (processTemplateContent reg templateContent keyGroup filename st).grouped := by
  unfold processTemplateContent
  simp only
  exact detectElements_warnIff (foldl_preserve
    (fun g pat hp => foldl_preserve (fun g2 m2 h2 => stepMatch_warnIff h2) _ _ hp)
    _ _ hst)

theorem vuePass_warnings {reg : Registry} :
    ∀ {files : List VueFile} {st st2 : TState},
    vuePass reg files st = Except.ok st2 → st2.warnings = st.warnings := by
  intro files
  induction files with
  | nil =>
    intro st st2 h
    simp [vuePass] at h
    rw [← h]
  | cons f rest ih =>
    intro st st2 h
    unfold vuePass at h
    cases hr : readFileE f with
    | error e =>
      simp only [hr] at h
      simp at h
    | ok content =>
      simp only [hr] at h
      cases hts : templateSection content with
      | none =>
        simp only [hts] at h
        exact ih h
      | some tc =>
        simp only [hts] at h
        rw [ih h]
        rfl

theorem jsPass_warnings {jsScan : JsScanners} :
    ∀ {files : List VueFile} {st st2 : TState},
    jsPass jsScan files st = Except.ok st2 → st2.warnings = st.warnings := by
  intro files
  induction files with
  | nil =>
    intro st st2 h
    simp [jsPass] at h
    rw [← h]
  | cons f rest ih =>
    intro st st2 h
    unfold jsPass at h
    cases hr : readFileE f with
    | error e =>
      simp only [hr] at h
      simp at h
    | ok content =>
      simp only [hr] at h
      rw [ih h]

/-- The per-file record map after processing a single template into an
empty state (used by concrete counterexamples). -/
def fileMapOf (registry : Registry) (template file : String) : List (String × LocatorInfo) :=
  (lookupA (processTemplateContent registry template file file
    { grouped := [], warnings := [], customComponentWarnings := [] }).grouped
    file).getD []

/-- The record stored under `key` after processing a single template
into an empty state (used by concrete counterexamples). -/
def recordOf (registry : Registry) (template file key : String) : Option LocatorInfo :=
  lookupA (fileMapOf registry template file) key

/-- Claim C6 as stated is false on the code: a fragile record of *low*
test relevance still carries a warning (the source attaches a warning to
every fragile record, regardless of relevance). -/
theorem C6_counterexample :
    (recordOf [] "<em><span class=\"icon\">i</span></em>" "p.vue" "class_icon").map
      (fun r => (r.warning.isSome, r.testRelevance, r.robustness)) =
    some (true, "low", "fragile") := by
  rfl

/-- Claim C6 amended: a record's warning is present iff its robustness
is fragile — test relevance plays no role; and the run-level `warnings`
array is never populated: template processing leaves it unchanged, and
the extraction pipeline returns it exactly as initialised (empty), so
the end-of-run warning printout has nothing to list. -/
theorem C6_amended :
    (∀ reg templateContent keyGroup filename st,
      allRecords warnIffFragile st.grouped →
      allRecords warnIffFragile
        (processTemplateContent reg templateContent keyGroup filename st).grouped) ∧
    (∀ reg templateContent keyGroup filename st,
      (processTemplateContent reg templateContent keyGroup filename st).warnings =
        st.warnings) ∧
    (∀ constantsOf jsScan initialRegistry vueFiles jsFiles out,
      extractLocatorsFromVue constantsOf jsScan initialRegistry vueFiles jsFiles =
        Except.ok out → out.warnings = []) := by
  refine ⟨fun reg tc kg fn st h => processTemplateContent_warnIff h,
    fun reg tc kg fn st => rfl, ?_⟩
  intro constantsOf jsScan initialRegistry vueFiles jsFiles out h
  unfold extractLocatorsFromVue at h
  cases h1 : constantsPass constantsOf (vueFiles ++ jsFiles) [] with
  | error e =>
    simp only [h1] at h
    simp at h
  | ok reg =>
    simp only [h1] at h
    cases h2 : vuePass reg vueFiles
        { grouped := [], warnings := [], customComponentWarnings := [] } with
    | error e =>
      simp only [h2] at h
      simp at h
    | ok st =>
      simp only [h2] at h
      cases h3 : jsPass jsScan jsFiles st with
      | error e =>
        simp only [h3] at h
        simp at h
      | ok st2 =>
        simp only [h3, Except.ok.injEq] at h
        rw [← h]
        show st2.warnings = []
        rw [jsPass_warnings h3, vuePass_warnings h2]

/-- Witness for the amended C6 at a concrete record. -/
theorem C6_amended_witness :
    allRecords warnIffFragile
      (processTemplateContent [] "<em><span class=\"icon\">i</span></em>" "p.vue" "p.vue"
        { grouped := [], warnings := [], customComponentWarnings := [] }).grouped :=
  C6_amended.1 [] "<em><span class=\"icon\">i</span></em>" "p.vue" "p.vue"
    { grouped := [], warnings := [], customComponentWarnings := [] }
    (by intro fe hfe; simp at hfe)

/-! ## Claim C7: the dynamic flag -/

theorem lookupA_jsSetA_ne {α : Type} {m : List (String × α)} {k k2 : String} {v : α}
    (h : k2 ≠ k) : lookupA (jsSetA m k v) k2 = lookupA m k2 := by
  induction m with
  | nil =>
    simp only [jsSetA, lookupA]
    rw [if_neg fun hc : k = k2 => h hc.symm]
  | cons hd tl ih =>
    obtain ⟨k₀, w⟩ := hd
    by_cases hk : k₀ = k
    · subst hk
      simp only [jsSetA, if_pos rfl, lookupA]
      rw [if_neg fun hc : k₀ = k2 => h hc.symm, if_neg fun hc : k₀ = k2 => h hc.symm]
    · simp only [jsSetA, if_neg hk, lookupA]
      by_cases hk2 : k₀ = k2
      · rw [if_pos hk2, if_pos hk2]
      · rw [if_neg hk2, if_neg hk2, ih]

/-- Claim C7 as stated is false on the code.  First template: `v-for`
sits on a strict ancestor (`ul`), the context resolver reports it in
`parentContext`, yet the record's `isDynamic` is `false`.  Second
template: `v-for` sits on the element itself, and `isDynamic` is still
`false` — the truncated `fullAttributeString` (`<li`) contains no
directives, so `detectVueDirectives` finds nothing. -/
theorem C7_counterexample :
    ((recordOf [] "<div><ul v-for=\"u in us\"><li data-testid=\"x\"></li></ul></div>"
        "f.vue" "x").map (fun r => (r.isDynamic, r.parentContext)) =
      some (false, "inside ul with dynamic directives")) ∧
    ((recordOf [] "<div><li v-for=\"u in us\" data-testid=\"y\"></li></div>"
        "g.vue" "y").map (fun r => (r.isDynamic, r.vueDirectives)) =
      some ((false : Bool), ([] : List String))) := by
  constructor
  · rfl
  · rfl

/-- Claim C7 amended: a record's `isDynamic` equals `true` iff the match
came from a dynamic-binding pattern or `detectVueDirectives` finds a
`v-for` token in the element's stored `fullAttributeString` (which, by
the truncated attribute extraction, is the tag's leading `<`+name
fragment); the ancestor directives reported by the context resolver only
reach the record's `parentContext` and never affect `isDynamic`. -/
theorem C7_amended (reg : Registry) (template keyGroup : String)
    (pat : LocatorPattern) (g : Grouped) (m : Nat × String)
    (htype : pat.type ≠ "fullAttributeString") :
    stepMatch reg template keyGroup pat g m = g ∨
    ∃ key r, stepMatch reg template keyGroup pat g m = insertGrouped g keyGroup key r ∧
      r.isDynamic =
        ((detectVueDirectives
          ((lookupA (extractElementWithAttributesEnhanced m.1 template).attributes
            "fullAttributeString").getD "")).isDynamic || pat.patternIsDynamic) ∧
      r.parentContext = (analyzeElementContext template m.1).parentContext := by
  unfold stepMatch
  cases hsel : pat.selector (resolveConstantReference reg m.2).1 with
  | none => exact Or.inl (by simp [hsel])
  | some sel =>
    right
    simp only [hsel]
    refine ⟨_, _, rfl, ?_, rfl⟩
    simp only
    congr 2
    rw [lookupA_jsSetA_ne fun hc => htype hc.symm]
    cases hres : (resolveConstantReference reg m.2).2 with
    | none => simp
    | some cname =>
      simp only
      rw [lookupA_jsSetA_ne (by decide)]

/-- Witness for the amended C7 at a concrete match with an ancestor
`v-for`. -/
theorem C7_amended_witness :
    stepMatch [] "<div><ul v-for=\"u in us\"><li data-testid=\"x\"></li></ul></div>"
      "f.vue"
      { scan := scanAttrQ "data-testid" false, type := "data-testid",
        selector := fun v => some (attrSel "data-testid" v), patternIsDynamic := false }
      [] (31, "x") = [] ∨
    ∃ key r, stepMatch [] "<div><ul v-for=\"u in us\"><li data-testid=\"x\"></li></ul></div>"
      "f.vue"
      { scan := scanAttrQ "data-testid" false, type := "data-testid",
        selector := fun v => some (attrSel "data-testid" v), patternIsDynamic := false }
      [] (31, "x") = insertGrouped [] "f.vue" key r ∧
      r.isDynamic =
        ((detectVueDirectives
          ((lookupA (extractElementWithAttributesEnhanced 31
            "<div><ul v-for=\"u in us\"><li data-testid=\"x\"></li></ul></div>").attributes
            "fullAttributeString").getD "")).isDynamic || false) ∧
      r.parentContext = (analyzeElementContext
        "<div><ul v-for=\"u in us\"><li data-testid=\"x\"></li></ul></div>" 31).parentContext :=
  C7_amended [] _ "f.vue" _ [] (31, "x") (by decide)

/-! ## Claim C4: error handling of unreadable files -/

theorem constantsPass_error (constantsOf : String → String → List ConstantDefinition) :
    ∀ (files : List VueFile) (r : Registry),
    (∃ f ∈ files, f.content = none) →
    ∃ e, constantsPass constantsOf files r = Except.error e := by
  intro files
  induction files with
  | nil =>
    rintro r ⟨f, hf, _⟩
    simp at hf
  | cons f rest ih =>
    rintro r ⟨f0, hf0, hnone⟩
    cases hc : f.content with
    | none =>
      refine ⟨"unreadable file: " ++ f.name, ?_⟩
      unfold constantsPass readFileE
      rw [hc]
    | some content =>
      rcases List.mem_cons.mp hf0 with rfl | hmem
      · rw [hc] at hnone
        exact absurd hnone (by simp)
      · obtain ⟨e, he⟩ := ih _ ⟨f0, hmem, hnone⟩
        refine ⟨e, ?_⟩
        unfold constantsPass readFileE
        rw [hc]
        exact he

theorem constantsPass_ok (constantsOf : String → String → List ConstantDefinition) :
    ∀ (files : List VueFile) (r : Registry),
    (∀ f ∈ files, f.content ≠ none) →
    ∃ r2, constantsPass constantsOf files r = Except.ok r2 := by
  intro files
  induction files with
  | nil =>
    intro r _
    exact ⟨r, rfl⟩
  | cons f rest ih =>
    intro r hall
    cases hc : f.content with
    | none => exact absurd hc (hall f (by simp))
    | some content =>
      obtain ⟨r2, hr2⟩ := ih _ fun f2 h2 => hall f2 (List.mem_cons_of_mem _ h2)
      refine ⟨r2, ?_⟩
      unfold constantsPass readFileE
      rw [hc]
      exact hr2

theorem vuePass_cons_some (reg : Registry) (f : VueFile) (rest : List VueFile)
    (st : TState) (content : String) (hc : f.content = some content) :
    vuePass reg (f :: rest) st =
      (match templateSection content with
       | none => vuePass reg rest st
       | some tc =>
         vuePass reg rest
           (processTemplateContent reg tc (slashPath f.name) f.name st)) := by
  obtain ⟨name, fc⟩ := f
  cases hc
  rfl

theorem vuePass_ok (reg : Registry) :
    ∀ (files : List VueFile) (st : TState),
    (∀ f ∈ files, f.content ≠ none) →
    ∃ st2, vuePass reg files st = Except.ok st2 := by
  intro files
  induction files with
  | nil =>
    intro st _
    exact ⟨st, rfl⟩
  | cons f rest ih =>
    intro st hall
    cases hc : f.content with
    | none => exact absurd hc (hall f (by simp))
    | some content =>
      have htail : ∀ f2 ∈ rest, f2.content ≠ none :=
        fun f2 h2 => hall f2 (List.mem_cons_of_mem _ h2)
      rw [vuePass_cons_some reg f rest st content hc]
      cases templateSection content with
      | none => exact ih st htail
      | some tc => exact ih _ htail

theorem jsPass_ok (jsScan : JsScanners) :
    ∀ (files : List VueFile) (st : TState),
    (∀ f ∈ files, f.content ≠ none) →
    ∃ st2, jsPass jsScan files st = Except.ok st2 := by
  intro files
  induction files with
  | nil =>
    intro st _
    exact ⟨st, rfl⟩
  | cons f rest ih =>
    intro st hall
    cases hc : f.content with
    | none => exact absurd hc (hall f (by simp))
    | some content =>
      have htail : ∀ f2 ∈ rest, f2.content ≠ none :=
        fun f2 h2 => hall f2 (List.mem_cons_of_mem _ h2)
      unfold jsPass readFileE
      rw [hc]
      obtain ⟨st2, hst2⟩ := ih _ htail
      exact ⟨st2, hst2⟩

set_option maxRecDepth 8000 in
/-- Claim C4 as stated is false on the code: with an unreadable file in
the scan set the whole run aborts with an error — the second, perfectly
readable file's locator never reaches any output — while the same
readable file alone yields its `class_icon` locator in the emitted map. -/
theorem C4_counterexample :
    (runExtraction (fun _ _ => []) ⟨fun _ => [], fun _ => []⟩ []
      [{ name := "bad.vue", content := none },
       { name := "p.vue",
         content := some "<template><em><span class=\"icon\">i</span></em></template>" }]
      [] = (Except.error "unreadable file: bad.vue" : Except String Artifacts)) ∧
    ((runExtraction (fun _ _ => []) ⟨fun _ => [], fun _ => []⟩ []
      [{ name := "p.vue",
         content := some "<template><em><span class=\"icon\">i</span></em></template>" }]
      []).map (fun a => strContains a.locatorMap "class_icon") =
      Except.ok true) := by
  constructor
  · rfl
  · rfl

/-- Claim C4 amended: per-file error isolation does not exist — any
unreadable file in the scan set makes the whole extraction throw, the
top-level catch turns it into a failed run (nonzero exit), and no
artifacts at all are produced; conversely, when every file is readable
the run succeeds. -/
theorem C4_amended :
    (∀ constantsOf jsScan reg vueFiles jsFiles,
      (∃ f ∈ vueFiles ++ jsFiles, f.content = none) →
      ∃ e, runExtraction constantsOf jsScan reg vueFiles jsFiles = Except.error e) ∧
    (∀ constantsOf jsScan reg vueFiles jsFiles,
      (∀ f ∈ vueFiles ++ jsFiles, f.content ≠ none) →
      ∃ a, runExtraction constantsOf jsScan reg vueFiles jsFiles = Except.ok a) := by
  constructor
  · intro constantsOf jsScan reg vueFiles jsFiles hex
    obtain ⟨e, he⟩ := constantsPass_error constantsOf (vueFiles ++ jsFiles) [] hex
    refine ⟨e, ?_⟩
    unfold runExtraction extractLocatorsFromVue
    simp only [he]
  · intro constantsOf jsScan reg vueFiles jsFiles hall
    obtain ⟨r2, hr2⟩ := constantsPass_ok constantsOf (vueFiles ++ jsFiles) [] hall
    obtain ⟨st, hst⟩ := vuePass_ok r2 vueFiles
      { grouped := [], warnings := [], customComponentWarnings := [] }
      fun f hf => hall f (List.mem_append_left _ hf)
    obtain ⟨st2, hst2⟩ := jsPass_ok jsScan jsFiles st
      fun f hf => hall f (List.mem_append_right _ hf)
    have hout : extractLocatorsFromVue constantsOf jsScan reg vueFiles jsFiles =
        Except.ok { groupedLocators := st2.grouped, warnings := st2.warnings,
                    customComponentWarnings := st2.customComponentWarnings } := by
      unfold extractLocatorsFromVue
      simp only [hr2, hst, hst2]
    cases hre : runExtraction constantsOf jsScan reg vueFiles jsFiles with
    | error e =>
      unfold runExtraction at hre
      rw [hout] at hre
      simp at hre
    | ok a => exact ⟨a, rfl⟩

/-! ## Claim C2: low-relevance records are not filtered before emission -/

theorem strInfix_trans {a b c : String} (h1 : strInfix a b) (h2 : strInfix b c) :
    strInfix a c := h1.trans h2

set_option maxRecDepth 8000 in
/-- Claim C2 as stated is false on the code: a record with
`testRelevance = low`, `isDynamic = false` and `isConditional = false`
(the decorative `class="spacer"` span) is still emitted — its key
appears in both the main locator map and the fragile locator map; no
relevance-based filtering happens anywhere before emission. -/
theorem C2_counterexample :
    ((recordOf [] "<em><span class=\"spacer\">i</span></em>" "q.vue" "class_spacer").map
      (fun r => (r.testRelevance, r.isDynamic, r.isConditional)) =
      some ("low", false, false)) ∧
    ((runExtraction (fun _ _ => []) ⟨fun _ => [], fun _ => []⟩ []
        [{ name := "q.vue",
           content := some "<template><em><span class=\"spacer\">i</span></em></template>" }]
        []).map (fun a => (strContains a.locatorMap "class_spacer",
          strContains a.fragileLocatorMap "class_spacer")) =
      Except.ok (true, true)) := by
  exact ⟨rfl, rfl⟩

/-- Claim C2 amended: emission performs no relevance filtering at all —
every record of the grouped map, whatever its `testRelevance`,
`isDynamic` and `isConditional` flags, has its full entry line as a
substring of the generated main locator map. -/
theorem C2_amended (g : Grouped) (fe : String × List (String × LocatorInfo))
    (kv : String × LocatorInfo) (hfe : fe ∈ g) (hkv : kv ∈ fe.2) :
    strInfix (mainMapEntry kv.1 kv.2) (generateMainLocatorMap g) := by
  have h1 : strInfix (mainMapEntry kv.1 kv.2) (mainMapBlock fe) := by
    unfold mainMapBlock
    exact strInfix_append_left _ (strInfix_append_right _
      (strInfix_mem_jsJoin _ _ (List.mem_map_of_mem _ hkv)))
  have h2 : strInfix (mainMapBlock fe) (jsJoin ",\n" (g.map mainMapBlock)) :=
    strInfix_mem_jsJoin _ _ (List.mem_map_of_mem _ hfe)
  unfold generateMainLocatorMap
  exact strInfix_append_left _ (strInfix_append_right _ (strInfix_trans h1 h2))

/-- A low-relevance, non-dynamic, non-conditional record, for the C2
witness. -/
def c2WitnessInfo : LocatorInfo :=
  { selector := ".spacer"
    type := "class"
    element := "span"
    rawValue := "spacer"
    robustness := "fragile"
    testRelevance := "low"
    warning := none
    isDynamic := false
    isConditional := false
    vueDirectives := []
    customComponent := false
    parentContext := ""
    resolvedFromConstant := none }

/-- Witness for the amended C2 at a concrete grouped map. -/
theorem C2_amended_witness :
    strInfix (mainMapEntry "class_spacer" c2WitnessInfo)
      (generateMainLocatorMap [("q.vue", [("class_spacer", c2WitnessInfo)])]) :=
  C2_amended [("q.vue", [("class_spacer", c2WitnessInfo)])]
    ("q.vue", [("class_spacer", c2WitnessInfo)]) ("class_spacer", c2WitnessInfo)
    (by simp) (by simp)

/-- Witness for the amended C4 at concrete inputs. -/
theorem C4_amended_witness :
    (∃ e, runExtraction (fun _ _ => []) ⟨fun _ => [], fun _ => []⟩ []
      [{ name := "bad.vue", content := none }] [] = Except.error e) ∧
    (∃ a, runExtraction (fun _ _ => []) ⟨fun _ => [], fun _ => []⟩ []
      [{ name := "ok.vue", content := some "<template></template>" }] [] =
        Except.ok a) :=
  ⟨C4_amended.1 (fun _ _ => []) ⟨fun _ => [], fun _ => []⟩ [] _ []
      ⟨{ name := "bad.vue", content := none }, by decide, rfl⟩,
   C4_amended.2 (fun _ _ => []) ⟨fun _ => [], fun _ => []⟩ [] _ []
      (by intro f hf; simp at hf; rw [hf]; simp)⟩

/-! ## Claim C1: per-file key uniqueness and collision suffixing -/

theorem insertUnique5_nodup {g : Grouped5} {group base : String} {info : LocatorInfo5}
    (h : ∀ fe ∈ g, (keysA fe.2).Nodup) :
    ∀ fe ∈ insertUnique5 g group base info, (keysA fe.2).Nodup := by
  intro fe hfe
  have hfe2 : fe ∈ jsSetA g group
      (jsSetA ((lookupA g group).getD [])
        (freshKey ((lookupA g group).getD []) base) info) := hfe
  rcases mem_jsSetA hfe2 with heq | hmem
  · rw [heq]
    apply keysA_jsSetA_nodup
    cases hg : lookupA g group with
    | none => simp [keysA]
    | some m0 =>
      have := h (group, m0) (lookupA_mem hg)
      simpa [hg] using this
  · exact h fe hmem

theorem stepMatch5_nodup {templateContent keyGroup : String} {pat : LocatorPattern5}
    {g : Grouped5} {m : Nat × String}
    (h : ∀ fe ∈ g, (keysA fe.2).Nodup) :
    ∀ fe ∈ stepMatch5 templateContent keyGroup pat g m, (keysA fe.2).Nodup := by
  intro fe hfe
  have hfe2 : fe ∈ (match pat.selector m.2 with
    | none => g
    | some sel =>
      insertUnique5 g keyGroup (makeKey5 m.2 pat.type)
        { selector := sel, type := pat.type,
          element := extractElementContext5 templateContent.data m.1,
          rawValue := m.2 }) := hfe
  cases hsel : pat.selector m.2 with
  | none =>
    rw [hsel] at hfe2
    exact h fe hfe2
  | some sel =>
    rw [hsel] at hfe2
    exact insertUnique5_nodup h fe hfe2

theorem processVueFile5_nodup {templateContent keyGroup : String} {g : Grouped5}
    (h : ∀ fe ∈ g, (keysA fe.2).Nodup) :
    ∀ fe ∈ processVueFile5 templateContent keyGroup g, (keysA fe.2).Nodup := by
  unfold processVueFile5
  exact foldl_preserve (P := fun g0 => ∀ fe ∈ g0, (keysA fe.2).Nodup)
    (fun g2 pat hg2 =>
      foldl_preserve (P := fun g0 => ∀ fe ∈ g0, (keysA fe.2).Nodup)
        (fun g3 m hg3 => stepMatch5_nodup hg3) _ g2 hg2)
    locatorPatterns5 g h

theorem extractLocatorsFromVue5Go_cons_none (f : VueFile) (rest : List VueFile)
    (g : Grouped5) (hc : f.content = none) :
    extractLocatorsFromVue5Go (f :: rest) g =
      Except.error ("unreadable file: " ++ f.name) := by
  obtain ⟨name, fc⟩ := f
  cases hc
  rfl

theorem extractLocatorsFromVue5Go_cons_some (f : VueFile) (rest : List VueFile)
    (g : Grouped5) (content : String) (hc : f.content = some content) :
    extractLocatorsFromVue5Go (f :: rest) g =
      (match templateSection content with
       | none => extractLocatorsFromVue5Go rest g
       | some tc =>
         extractLocatorsFromVue5Go rest
           (processVueFile5 tc (slashPath f.name) g)) := by
  obtain ⟨name, fc⟩ := f
  cases hc
  rfl

theorem extractLocatorsFromVue5Go_nodup :
    ∀ (files : List VueFile) (g gout : Grouped5),
    (∀ fe ∈ g, (keysA fe.2).Nodup) →
    extractLocatorsFromVue5Go files g = Except.ok gout →
    ∀ fe ∈ gout, (keysA fe.2).Nodup := by
  intro files
  induction files with
  | nil =>
    intro g gout hg heq
    cases heq
    exact hg
  | cons f rest ih =>
    intro g gout hg heq
    cases hc : f.content with
    | none =>
      rw [extractLocatorsFromVue5Go_cons_none f rest g hc] at heq
      exact absurd heq (by simp)
    | some content =>
      rw [extractLocatorsFromVue5Go_cons_some f rest g content hc] at heq
      cases hts : templateSection content with
      | none =>
        rw [hts] at heq
        exact ih g gout hg heq
      | some tc =>
        rw [hts] at heq
        exact ih _ gout (processVueFile5_nodup hg) heq

theorem extractLocatorsFromVue5_nodup (files : List VueFile) (g : Grouped5)
    (h : extractLocatorsFromVue5 files = Except.ok g) :
    ∀ fe ∈ g, (keysA fe.2).Nodup :=
  extractLocatorsFromVue5Go_nodup files [] g (by intro fe hfe; simp at hfe) h

/-- A template with two elements of the same file whose test ids both
normalise to the key `a_b`. -/
def c1Template : String := "<i data-testid=\"a-b\">x</i><i data-testid=\"a.b\">y</i>"

set_option maxRecDepth 8000 in
/-- Claim C1 as stated is false on the enhanced scanner
(`scanVueTemplates.ts`): on `c1Template` the test ids `a-b` and `a.b`
both normalise to the key `a_b`; the attribute scanner yields two
matches, yet the per-file map keeps a single record — the second
occurrence overwrote the first (the raw value stored under `a_b` is
`a.b`) and no suffixed key `a_b_1` exists. -/
theorem C1_counterexample :
    ((scanAttrQ "data-testid" true c1Template).length = 2) ∧
    ((fileMapOf [] c1Template "f.vue").length = 1) ∧
    ((recordOf [] c1Template "f.vue" "a_b").map (fun r => r.rawValue) =
      some "a.b") ∧
    (recordOf [] c1Template "f.vue" "a_b_1" = none) := by
  exact ⟨rfl, rfl, rfl, rfl⟩

/-- Claim C1 amended: only the variant scanner (`part_005`) implements
the claimed behaviour — its insert stores the new record under the
fresh key and every earlier binding survives, an unused base key is
taken verbatim, the first collision gets suffix `_1`, and every
per-file map of a successful variant run has pairwise distinct keys.
The enhanced scanner instead assigns the colliding key in place, so on
a collision the inserted record unconditionally replaces the earlier
one. -/
theorem C1_amended :
    (∀ (g : Grouped5) (group base : String) (info : LocatorInfo5),
      lookupA (insertUnique5 g group base info) group =
        some (jsSetA ((lookupA g group).getD [])
          (freshKey ((lookupA g group).getD []) base) info) ∧
      lookupA (jsSetA ((lookupA g group).getD [])
          (freshKey ((lookupA g group).getD []) base) info)
        (freshKey ((lookupA g group).getD []) base) = some info ∧
      (∀ k v, lookupA ((lookupA g group).getD []) k = some v →
        lookupA (jsSetA ((lookupA g group).getD [])
          (freshKey ((lookupA g group).getD []) base) info) k = some v)) ∧
    (∀ (m : List (String × LocatorInfo5)) (base : String),
      (lookupA m base).isNone → freshKey m base = base) ∧
    (∀ (m : List (String × LocatorInfo5)) (base : String),
      ¬(lookupA m base).isNone → (lookupA m (candKey base 1)).isNone →
      freshKey m base = candKey base 1) ∧
    (∀ (files : List VueFile) (g : Grouped5),
      extractLocatorsFromVue5 files = Except.ok g →
      ∀ fe ∈ g, (keysA fe.2).Nodup) ∧
    (∀ (g : Grouped) (group key : String) (info : LocatorInfo),
      lookupA ((lookupA (insertGrouped g group key info) group).getD []) key =
        some info) := by
  refine ⟨?_, ?_, ?_, ?_, ?_⟩
  · intro g group base info
    refine ⟨lookupA_jsSetA_self g group _, lookupA_jsSetA_self _ _ info, ?_⟩
    intro k v hkv
    have hfresh := freshKey_isNone ((lookupA g group).getD []) base
    have hnone : lookupA ((lookupA g group).getD [])
        (freshKey ((lookupA g group).getD []) base) = none :=
      Option.isNone_iff_eq_none.mp hfresh
    rw [jsSetA_of_not_mem _ _ _ hnone]
    exact lookupA_append_of_some _ hkv
  · exact freshKey_of_free
  · exact freshKey_first_suffix
  · exact fun files g h => extractLocatorsFromVue5_nodup files g h
  · intro g group key info
    rw [insertGrouped, lookupA_jsSetA_self]
    exact lookupA_jsSetA_self _ _ info

/-- The record of the C1 witness instantiations. -/
def c1WitnessInfo5 : LocatorInfo5 :=
  { selector := "[data-testid=\"a-b\"]"
    type := "data-testid"
    element := "i"
    rawValue := "a-b" }

set_option maxRecDepth 8000 in
/-- Witness for the amended C1 at concrete inputs: a bound key survives
an insert at a fresh key, an unused base key is kept, a first collision
yields the `_1` suffix, and the keys of the concrete variant run over
`c1Template` are pairwise distinct. -/
theorem C1_amended_witness :
    (lookupA (jsSetA [("k0", c1WitnessInfo5)]
        (freshKey [("k0", c1WitnessInfo5)] "a_b") c1WitnessInfo5) "k0" =
      some c1WitnessInfo5) ∧
    (freshKey ([] : List (String × LocatorInfo5)) "a_b" = "a_b") ∧
    (freshKey [("a_b", c1WitnessInfo5)] "a_b" = candKey "a_b" 1) ∧
    (keysA ((lookupA (processVueFile5 c1Template "f.vue" []) "f.vue").getD
      [])).Nodup :=
  ⟨(C1_amended.1 [("g", [("k0", c1WitnessInfo5)])] "g" "a_b" c1WitnessInfo5).2.2
      "k0" c1WitnessInfo5 (by decide),
   C1_amended.2.1 [] "a_b" (by decide),
   C1_amended.2.2.1 [("a_b", c1WitnessInfo5)] "a_b" (by decide) (by decide),
   C1_amended.2.2.2.1
     [⟨"f.vue", some ("<template>" ++ c1Template ++ "</template>")⟩]
     (processVueFile5 c1Template "f.vue" []) rfl
     ("f.vue", (lookupA (processVueFile5 c1Template "f.vue" []) "f.vue").getD [])
     (by decide)⟩

end VueLoc
